import Mathlib

/-!
# Verification of the restaurant-finance CSV ingestion and aggregation pipeline

Shallow embedding of the Go sources under `backend/`:

* `internal/imports/parsers.go` — CSV row parsing, field mapping, per-source-type
  validation (`Parser.Parse`, `Parser.parseRow`, `validatePOSRow`, `parseDate`,
  `parseAmount`, `DefaultMappings`);
* `internal/imports/pipeline.go` — the import pipeline (`StartImport`,
  `ProcessImport`, `processPOSRow`, `getDaypartForTime`) and its store queries
  (`GetByFileHash` from `parsers.go`'s store section);
* `cmd/worker/aggregates.go` — the aggregation engine (`refreshDayAggregates`).

Machine environment (database handles, UUID generation, wall-clock time, the
SHA-256 routine) is passed in as explicit parameters; SQL statements are
embedded as executable functions over lists of rows, following PostgreSQL
semantics for `ON CONFLICT` (a unique index treats NULLs as distinct, per the
plain `UNIQUE` constraint in `migrations/001_init.up.sql`) and for aggregate
queries (a non-grouped column reference alongside an aggregate is an error).

String manipulation is implemented over `List Char` so that every definition
reduces in the kernel; the helpers below mirror the Go standard-library calls
used by the source (`strings.TrimSpace`, `strings.ReplaceAll`, splitting on a
single-character separator, decimal parsing).
-/

namespace RestaurantFinance

/-- Characters treated as space by `strings.TrimSpace` (ASCII subset). -/
def isSpaceChar (c : Char) : Bool :=
  c = ' ' ∨ c = '\t' ∨ c = '\n' ∨ c = '\r'

/-- Trim leading and trailing whitespace from a character list. -/
def trimChars (l : List Char) : List Char :=
  ((l.dropWhile isSpaceChar).reverse.dropWhile isSpaceChar).reverse

/-- Model of `strings.TrimSpace`. -/
def trimString (s : String) : String :=
  String.mk (trimChars s.data)

/-- Remove every occurrence of a character (model of `strings.ReplaceAll s c ""`). -/
def removeChar (c : Char) (s : String) : String :=
  String.mk (s.data.filter (fun d => d ≠ c))

/-- Split a character list on a separator character. -/
def splitChars (sep : Char) : List Char → List Char → List (List Char)
  | [], acc => [acc.reverse]
  | c :: rest, acc =>
    if c = sep then acc.reverse :: splitChars sep rest []
    else splitChars sep rest (c :: acc)

/-- Split a string on a single-character separator. -/
def splitOnChar (sep : Char) (s : String) : List String :=
  (splitChars sep s.data []).map String.mk

/-- Numeric value of a digit list (most significant first). -/
def digitsVal (l : List Char) : Nat :=
  l.foldl (fun a c => a * 10 + (c.toNat - 48)) 0

/-- Parse a string of exactly `w` digits (a zero-padded calendar field in a Go
time layout such as `01` or `2006` accepts exactly its own width). -/
def fixedDigits (w : Nat) (s : String) : Option Nat :=
  if s.data.length = w ∧ s.data.all Char.isDigit then some (digitsVal s.data) else none

/-- Parse a 1- or 2-digit field (a non-padded Go layout field such as `15` or `3`). -/
def flexDigits (s : String) : Option Nat :=
  if (s.data.length = 1 ∨ s.data.length = 2) ∧ s.data.all Char.isDigit then
    some (digitsVal s.data)
  else none

/-- Days in a month, with Gregorian leap years (Go's `time` package rejects an
out-of-range day-of-month when parsing). -/
def daysInMonth (y m : Nat) : Nat :=
  if m = 2 then
    (if (y % 4 = 0 ∧ y % 100 ≠ 0) ∨ y % 400 = 0 then 29 else 28)
  else if m = 4 ∨ m = 6 ∨ m = 9 ∨ m = 11 then 30 else 31

/-- A parsed Go `time.Time`, at second granularity (the only components the
recognized layouts carry). -/
structure GoDate where
  year : Nat
  month : Nat
  day : Nat
  hour : Nat
  minute : Nat
  second : Nat
deriving Repr, DecidableEq

/-- Layout `2006-01-02`. -/
def parseDateISO (s : String) : Option GoDate :=
  match splitOnChar '-' s with
  | [ys, ms, ds] => do
    let y ← fixedDigits 4 ys
    let m ← fixedDigits 2 ms
    let d ← fixedDigits 2 ds
    if 1 ≤ m ∧ m ≤ 12 ∧ 1 ≤ d ∧ d ≤ daysInMonth y m then
      some ⟨y, m, d, 0, 0, 0⟩
    else none
  | _ => none

/-- Layout `02/01/2006` (day/month/year). -/
def parseDateDMY (s : String) : Option GoDate :=
  match splitOnChar '/' s with
  | [ds, ms, ys] => do
    let d ← fixedDigits 2 ds
    let m ← fixedDigits 2 ms
    let y ← fixedDigits 4 ys
    if 1 ≤ m ∧ m ≤ 12 ∧ 1 ≤ d ∧ d ≤ daysInMonth y m then
      some ⟨y, m, d, 0, 0, 0⟩
    else none
  | _ => none

/-- Layout `01/02/2006` (month/day/year). -/
def parseDateMDY (s : String) : Option GoDate :=
  match splitOnChar '/' s with
  | [ms, ds, ys] => do
    let m ← fixedDigits 2 ms
    let d ← fixedDigits 2 ds
    let y ← fixedDigits 4 ys
    if 1 ≤ m ∧ m ≤ 12 ∧ 1 ≤ d ∧ d ≤ daysInMonth y m then
      some ⟨y, m, d, 0, 0, 0⟩
    else none
  | _ => none

/-- Clock part `15:04:05` of the timestamp layouts (Go's `15` hour field is not
zero-padded, so it accepts one or two digits). -/
def parseClockHMS (s : String) : Option (Nat × Nat × Nat) :=
  match splitOnChar ':' s with
  | [hs, ms, ss] => do
    let h ← flexDigits hs
    let m ← fixedDigits 2 ms
    let sec ← fixedDigits 2 ss
    if h ≤ 23 ∧ m ≤ 59 ∧ sec ≤ 59 then some (h, m, sec) else none
  | _ => none

/-- Layouts `2006-01-02T15:04:05` and `2006-01-02 15:04:05`, split at `sep`. -/
def parseDateTimeWith (sep : Char) (s : String) : Option GoDate :=
  match splitOnChar sep s with
  | [dpart, tpart] => do
    let d ← parseDateISO dpart
    let (h, mi, se) ← parseClockHMS tpart
    some { d with hour := h, minute := mi, second := se }
  | _ => none

/-- Model of `parseDate` (parsers.go): trim, then try the five recognized
layouts in order. -/
def parseDate (s : String) : Option GoDate :=
  let t := trimString s
  (parseDateISO t).orElse fun _ =>
  (parseDateDMY t).orElse fun _ =>
  (parseDateMDY t).orElse fun _ =>
  (parseDateTimeWith 'T' t).orElse fun _ =>
  parseDateTimeWith ' ' t

/-- Decimal-syntax float parsing, as an exact rational: optional sign, integer
and/or fractional digits, optional decimal exponent.  Models the grammar
accepted by `strconv.ParseFloat` for ordinary decimal inputs (the exotic
accepted forms — hex floats, `Inf`, `NaN`, digit-group underscores — do not
occur in this pipeline's data and are not modelled; rounding to binary is not
modelled since the values land in exact `DECIMAL` columns). -/
def parseFloatQ (s : String) : Option ℚ :=
  let cs := s.data
  let (sign, cs1) : ℚ × List Char :=
    match cs with
    | '+' :: r => (1, r)
    | '-' :: r => (-1, r)
    | _ => (1, cs)
  let ip := cs1.takeWhile Char.isDigit
  let cs2 := cs1.dropWhile Char.isDigit
  let (fp, cs3) : List Char × List Char :=
    match cs2 with
    | '.' :: r => (r.takeWhile Char.isDigit, r.dropWhile Char.isDigit)
    | _ => ([], cs2)
  if ip.isEmpty ∧ fp.isEmpty then none
  else
    let mant : ℚ := sign * ((digitsVal ip : ℚ) + (digitsVal fp : ℚ) / ((10 : ℚ) ^ fp.length))
    match cs3 with
    | [] => some mant
    | 'e' :: r | 'E' :: r =>
      let (esign, r1) : Bool × List Char :=
        match r with
        | '+' :: r' => (true, r')
        | '-' :: r' => (false, r')
        | _ => (true, r)
      let ed := r1.takeWhile Char.isDigit
      let r2 := r1.dropWhile Char.isDigit
      if ed.isEmpty ∨ ¬ r2.isEmpty then none
      else some (if esign then mant * (10 : ℚ) ^ digitsVal ed
                 else mant / (10 : ℚ) ^ digitsVal ed)
    | _ => none

/-- Model of `parseAmount` (parsers.go): trim, strip `$` and `,`, parse as a
float. -/
def parseAmount (s : String) : Option ℚ :=
  parseFloatQ (removeChar ',' (removeChar '$' (trimString s)))

/-- Layout `15:04` (24-hour clock), as minutes since midnight. -/
def parseTime24 (s : String) : Option Nat :=
  match splitOnChar ':' s with
  | [hs, ms] => do
    let h ← flexDigits hs
    let m ← fixedDigits 2 ms
    if h ≤ 23 ∧ m ≤ 59 then some (h * 60 + m) else none
  | _ => none

/-- Layout `3:04 PM` (12-hour clock with meridiem), as minutes since midnight. -/
def parseTime12 (s : String) : Option Nat :=
  match splitOnChar ' ' s with
  | [clock, ampm] =>
    (match splitOnChar ':' clock with
     | [hs, ms] => do
       let h ← flexDigits hs
       let m ← fixedDigits 2 ms
       if 1 ≤ h ∧ h ≤ 12 ∧ m ≤ 59 then
         if ampm = "PM" then some ((h % 12 + 12) * 60 + m)
         else if ampm = "AM" then some ((h % 12) * 60 + m)
         else none
       else none
     | _ => none)
  | _ => none

/-- The time parsing in `getDaypartForTime` (pipeline.go): try `15:04`, then
`3:04 PM`. -/
def parseTimeOfDay (s : String) : Option Nat :=
  (parseTime24 s).orElse fun _ => parseTime12 s

/-! ## Row parsing and validation (`Parser` in parsers.go)

Go's `map[string]string` row maps are modelled as association lists with
last-assignment-wins lookup, which reproduces Go map overwrite semantics for
duplicate keys.  (Go map *iteration* order is unspecified; the mapping
profile's column map is modelled as a list iterated in order, which is
observationally equal except when two source columns write the same target
field.)  Mapping-profile default values, `interface{}` in Go (JSON values),
are modelled as strings — the only case the validators inspect. -/

/-- A string-keyed map as built by assignments. -/
abbrev SMap := List (String × String)

/-- Lookup: the latest assignment wins, as for a Go map. -/
def mapGet (m : SMap) (k : String) : Option String :=
  (m.reverse.find? (fun p => p.1 = k)).map (fun p => p.2)

/-- Assignment (`m[k] = v`). -/
def mapSet (m : SMap) (k v : String) : SMap :=
  m ++ [(k, v)]

/-- `MappingProfile` (mappings.go): source column → target field, plus default
values for missing fields. -/
structure MappingProfile where
  columnMaps : List (String × String)
  defaults : List (String × String)
deriving Repr, DecidableEq

/-- `ParsedRow` (parsers.go). -/
structure ParsedRow where
  lineNumber : Nat
  raw : SMap
  mapped : SMap
  errors : List String
deriving Repr, DecidableEq

/-- `ParseResult` (parsers.go). -/
structure ParseResult where
  headers : List String
  rows : List ParsedRow
  validRows : Nat
  errorRows : Nat
  totalRows : Nat
deriving Repr, DecidableEq

/-- The raw map of a row: every header gets the trimmed record value at its
index, or `""` when the record is short (parseRow, first loop). -/
def buildRaw (headers record : List String) : SMap :=
  headers.enum.map (fun p =>
    (p.2, match record.get? p.1 with
          | some v => trimString v
          | none => ""))

/-- Apply a mapping profile to a raw map (parseRow, second block): copy each
non-empty source-column value to its target field, then fill absent fields
from the profile's defaults. -/
def applyMapping (mp : MappingProfile) (raw : SMap) : SMap :=
  let m1 := mp.columnMaps.foldl
    (fun acc p =>
      match mapGet raw p.1 with
      | some v => if v ≠ "" then mapSet acc p.2 v else acc
      | none => acc) []
  mp.defaults.foldl
    (fun acc p =>
      match mapGet acc p.1 with
      | some _ => acc
      | none => mapSet acc p.1 p.2) m1

/-- Error text `missing required field: %s`. -/
def missingFieldMsg (f : String) : String :=
  "missing required field: " ++ f

/-- Error text `invalid date format: %s`. -/
def invalidDateMsg (v : String) : String :=
  "invalid date format: " ++ v

/-- Error text `invalid date format for %s: %s`. -/
def invalidDateFieldMsg (f v : String) : String :=
  "invalid date format for " ++ f ++ ": " ++ v

/-- Error text `invalid numeric value for %s: %s`. -/
def invalidNumMsg (f v : String) : String :=
  "invalid numeric value for " ++ f ++ ": " ++ v

/-- Required-field check shared by the three validators: a field that is
absent or empty appends one error. -/
def requiredErrors (mapped : SMap) (fields : List String) : List String :=
  fields.foldl
    (fun acc f =>
      match mapGet mapped f with
      | none => acc ++ [missingFieldMsg f]
      | some v => if v = "" then acc ++ [missingFieldMsg f] else acc) []

/-- Numeric-format check shared by the validators: a present, non-empty value
that `parseAmount` rejects appends one error. -/
def numericErrors (mapped : SMap) (fields : List String) : List String :=
  fields.foldl
    (fun acc f =>
      match mapGet mapped f with
      | some v =>
        if v ≠ "" ∧ parseAmount v = none then acc ++ [invalidNumMsg f v] else acc
      | none => acc) []

/-- `validatePOSRow` (parsers.go): required {date, total}; date format; the
four numeric fields. -/
def validatePOSRow (mapped : SMap) : List String :=
  requiredErrors mapped [ "date", "total" ] ++
  (match mapGet mapped "date" with
   | some v => if v ≠ "" ∧ parseDate v = none then [invalidDateMsg v] else []
   | none => []) ++
  numericErrors mapped [ "total", "discounts", "comps", "tax" ]

/-- Date-format check of `validatePayrollRow`. -/
def payrollDateErrors (mapped : SMap) (fields : List String) : List String :=
  fields.foldl
    (fun acc f =>
      match mapGet mapped f with
      | some v =>
        if v ≠ "" ∧ parseDate v = none then acc ++ [invalidDateFieldMsg f v] else acc
      | none => acc) []

/-- `validatePayrollRow` (parsers.go). -/
def validatePayrollRow (mapped : SMap) : List String :=
  requiredErrors mapped [ "period_start", "period_end", "total_wages" ] ++
  payrollDateErrors mapped [ "period_start", "period_end" ]

/-- `validateInventoryRow` (parsers.go). -/
def validateInventoryRow (mapped : SMap) : List String :=
  requiredErrors mapped [ "snapshot_date", "item_name", "quantity", "unit_cost" ] ++
  numericErrors mapped [ "quantity", "unit_cost" ]

/-- `Parser.parseRow` (parsers.go): build the raw map, apply the mapping when
one is configured (none otherwise), validate by source type. -/
def parseRow (sourceType : String) (mapping : Option MappingProfile)
    (headers record : List String) (lineNum : Nat) : ParsedRow :=
  let raw := buildRaw headers record
  let mapped :=
    match mapping with
    | some mp => applyMapping mp raw
    | none => []
  let errors :=
    if sourceType = "pos" then validatePOSRow mapped
    else if sourceType = "payroll" then validatePayrollRow mapped
    else if sourceType = "inventory" then validateInventoryRow mapped
    else []
  ⟨lineNum, raw, mapped, errors⟩

/-- The record-reading loop of `Parser.Parse`.  The CSV reader is modelled at
record granularity: a line whose field count differs from the header's is the
malformed-line case (`csv.Reader` returns `ErrFieldCount`, and with
`LazyQuotes` set this is the error a data line produces); the loop advances
the line counter past it and otherwise skips it. -/
def parseLoop (sourceType : String) (mapping : Option MappingProfile)
    (headers : List String) :
    List (List String) → Nat → ParseResult → ParseResult
  | [], _, acc => acc
  | record :: rest, lineNum, acc =>
    if record.length ≠ headers.length then
      parseLoop sourceType mapping headers rest (lineNum + 1) acc
    else
      let row := parseRow sourceType mapping headers record (lineNum + 1)
      let acc' : ParseResult :=
        { acc with
          rows := acc.rows ++ [row]
          totalRows := acc.totalRows + 1
          validRows := if row.errors.isEmpty then acc.validRows + 1 else acc.validRows
          errorRows := if row.errors.isEmpty then acc.errorRows else acc.errorRows + 1 }
      parseLoop sourceType mapping headers rest (lineNum + 1) acc'

/-- `Parser.Parse` (parsers.go): read the header record (an empty stream fails
with `failed to read CSV headers`), trim the headers, then loop over the data
records starting the line counter at 1 (the header line). -/
def Parse (sourceType : String) (mapping : Option MappingProfile) :
    List (List String) → Option ParseResult
  | [] => none
  | headerRecord :: dataRecords =>
    let headers := headerRecord.map trimString
    some (parseLoop sourceType mapping headers dataRecords 1 ⟨headers, [], 0, 0, 0⟩)

/-- `DefaultMappings` (parsers.go): the hard-coded per-source-type default
column mappings.  Exposed by the HTTP mappings handler; notably *not*
consulted by `parseRow`. -/
def DefaultMappings : List (String × List (String × String)) :=
  [ ("pos",
     [ ("Date", "date"), ("Time", "time"), ("Total", "total"),
       ("Subtotal", "subtotal"), ("Tax", "tax"), ("Discounts", "discounts"),
       ("Comps", "comps"), ("Payment Method", "payment_method"),
       ("Channel", "channel"), ("Server", "server") ]),
    ("payroll",
     [ ("Period Start", "period_start"), ("Period End", "period_end"),
       ("Employee", "employee_name"), ("Hours Worked", "hours_worked"),
       ("Hourly Rate", "hourly_rate"), ("Total Wages", "total_wages"),
       ("Super", "superannuation"), ("Tax Withheld", "tax_withheld") ]),
    ("inventory",
     [ ("Snapshot Date", "snapshot_date"), ("Item Name", "item_name"),
       ("Category", "category"), ("Quantity", "quantity"), ("Unit", "unit"),
       ("Unit Cost", "unit_cost"), ("Total Value", "total_value") ]) ]

/-! ## Import pipeline (pipeline.go)

UUIDs are modelled as `Nat` identifiers supplied by the caller (the
environment generates them), timestamps as `Nat`, the database as explicit
lists of rows.  `StartImport` takes the SHA-256 routine as a function
parameter `hashFn` (it is a library primitive, not repository code); all the
claims need of it is that equal content hashes equally, which holds for any
function. -/

/-- `ImportJob` (pipeline.go). -/
structure ImportJob where
  id : Nat
  sourceType : String
  status : String
  fileName : String
  fileHash : String
  totalRows : Nat
  processedRows : Nat
  errorRows : Nat
  locationId : Nat
  mappingId : Option Nat
  createdById : Nat
  createdAt : Nat
deriving Repr, DecidableEq

/-- `ImportAnomaly` (pipeline.go), at the fields row processing writes. -/
structure ImportAnomaly where
  lineNumber : Nat
  severity : String
  message : String
deriving Repr, DecidableEq

/-- `ImportStore.GetByFileHash`: the most recently created job with the given
file hash at the given location (`ORDER BY created_at DESC LIMIT 1`; among
equal timestamps the choice is unspecified in SQL — this model keeps the
earlier row). -/
def GetByFileHash (jobs : List ImportJob) (fileHash : String) (locationId : Nat) :
    Option ImportJob :=
  (jobs.filter (fun j => j.fileHash = fileHash ∧ j.locationId = locationId)).foldl
    (fun best j =>
      match best with
      | none => some j
      | some b => if j.createdAt > b.createdAt then some j else some b)
    none

/-- `ImportParams` (pipeline.go); `File` is the byte content. -/
structure ImportParams where
  sourceType : String
  fileName : String
  content : List Nat
  locationId : Nat
  mappingId : Option Nat
  userId : Nat
deriving Repr, DecidableEq

/-- Outcome of `StartImport`: the duplicate rejection returns the existing job
together with the `file has already been imported` error; otherwise the newly
created job is returned. -/
inductive StartOutcome where
  | rejected (existing : ImportJob)
  | created (job : ImportJob)
deriving Repr, DecidableEq

/-- The job record `StartImport` creates. -/
def newJobFor (params : ImportParams) (fileHash : String) (newId now : Nat) :
    ImportJob :=
  { id := newId
    sourceType := params.sourceType
    status := "pending"
    fileName := params.fileName
    fileHash := fileHash
    totalRows := 0
    processedRows := 0
    errorRows := 0
    locationId := params.locationId
    mappingId := params.mappingId
    createdById := params.userId
    createdAt := now }

/-- `Pipeline.StartImport` (pipeline.go): hash the content, reject when the
prior job found for (hash, location) is `completed`, otherwise create a new
`pending` job.  Returns the outcome and the job table afterwards. -/
def StartImport (hashFn : List Nat → String) (jobs : List ImportJob)
    (newId now : Nat) (params : ImportParams) : StartOutcome × List ImportJob :=
  let fileHash := hashFn params.content
  match GetByFileHash jobs fileHash params.locationId with
  | some existing =>
    if existing.status = "completed" then
      (.rejected existing, jobs)
    else
      let job := newJobFor params fileHash newId now
      (.created job, jobs ++ [job])
  | none =>
    let job := newJobFor params fileHash newId now
    (.created job, jobs ++ [job])

/-- The per-row body of the `ProcessImport` loop: a row with validation errors
becomes one anomaly per error string (severity `error`) and is not dispatched;
a valid row is dispatched to its upserter, and an upsert failure becomes one
anomaly carrying the error text.  `upsertErr` abstracts the domain upsert's
outcome (`none` = success). -/
structure RowDisposition where
  anomalies : List ImportAnomaly
  dispatched : Bool
  processedOk : Bool
deriving Repr, DecidableEq

/-- Disposition of one parsed row inside `ProcessImport`. -/
def rowDisposition (row : ParsedRow) (upsertErr : ParsedRow → Option String) :
    RowDisposition :=
  if row.errors.isEmpty then
    match upsertErr row with
    | none => ⟨[], true, true⟩
    | some msg => ⟨[⟨row.lineNumber, "error", msg⟩], true, false⟩
  else
    ⟨row.errors.map (fun m => ⟨row.lineNumber, "error", m⟩), false, false⟩

/-- The completed job state `ProcessImport` leaves behind, plus the anomalies
recorded and the rows dispatched. -/
structure ProcessResult where
  totalRows : Nat
  processedRows : Nat
  errorRows : Nat
  status : String
  anomalies : List ImportAnomaly
  dispatchedRows : List ParsedRow
deriving Repr, DecidableEq

/-- One iteration of the `ProcessImport` row loop applied to the running job
state. -/
def processStep (upsertErr : ParsedRow → Option String) (acc : ProcessResult)
    (row : ParsedRow) : ProcessResult :=
  let d := rowDisposition row upsertErr
  { acc with
    processedRows := acc.processedRows + (if d.processedOk then 1 else 0)
    errorRows := acc.errorRows + (if d.dispatched ∧ ¬ d.processedOk then 1 else 0)
    anomalies := acc.anomalies ++ d.anomalies
    dispatchedRows := acc.dispatchedRows ++ (if d.dispatched then [row] else []) }

/-- `Pipeline.ProcessImport` (pipeline.go), after a successful parse: copy the
parser's total and error-row counts onto the job, then disposition each row;
valid rows whose upsert fails increment the error count, successfully
processed rows the processed count; finally the job completes. -/
def ProcessImport (result : ParseResult) (upsertErr : ParsedRow → Option String) :
    ProcessResult :=
  result.rows.foldl (processStep upsertErr)
    ⟨result.totalRows, 0, result.errorRows, "completed", [], []⟩

/-- A daypart row (`dayparts` table): id and a [start, end) window in minutes
since midnight. -/
structure Daypart where
  id : Nat
  startMinutes : Nat
  endMinutes : Nat
deriving Repr, DecidableEq

/-- `Pipeline.getDaypartForTime` (pipeline.go): parse the time (24-hour, then
12-hour layout), then `SELECT id FROM dayparts WHERE start_time <= t AND
end_time > t LIMIT 1`.  A parse failure or an empty result is an error in Go;
the caller reacts to both by leaving the daypart unset, so both are `none`
here. -/
def getDaypartForTime (dayparts : List Daypart) (timeStr : String) : Option Nat :=
  match parseTimeOfDay timeStr with
  | none => none
  | some t =>
    ((dayparts.filter (fun d => decide (d.startMinutes ≤ t ∧ t < d.endMinutes))).head?).map
      (fun d => d.id)

/-- `Pipeline.getOrCreateChannel` (pipeline.go): case-insensitive lookup by
display name; on a miss a new channel with the caller-supplied fresh id is
created. -/
def getOrCreateChannel (channels : List (String × Nat)) (newChannelId : Nat)
    (name : String) : Nat :=
  match channels.find? (fun c => String.mk (c.1.data.map Char.toLower) =
      String.mk (name.data.map Char.toLower)) with
  | some c => c.2
  | none => newChannelId

/-- The sale row `processPOSRow` writes (the columns of its INSERT). -/
structure Sale where
  locationId : Nat
  channelId : Option Nat
  daypartId : Option Nat
  occurredAt : GoDate
  total : ℚ
  subtotal : ℚ
  tax : ℚ
  discounts : ℚ
  comps : ℚ
  paymentMethod : String
  importSource : String
  sourceId : String
deriving Repr, DecidableEq

/-- `Pipeline.processPOSRow` (pipeline.go): re-parse date and total (errors
abort the row), parse the optional amounts with errors ignored, resolve
channel and daypart with errors leaving the field unset, derive
`subtotal = total - tax`, and build the natural source id from the first 8
characters of the file hash and the line number.  The database write itself is
environment; its success is the `upsertErr = none` case of `rowDisposition`. -/
def processPOSRow (fileHash : String) (locationId : Nat)
    (channels : List (String × Nat)) (newChannelId : Nat)
    (dayparts : List Daypart) (row : ParsedRow) : Except String Sale :=
  match parseDate ((mapGet row.mapped "date").getD "") with
  | none => .error "invalid date"
  | some date =>
    match parseAmount ((mapGet row.mapped "total").getD "") with
    | none => .error "invalid total"
    | some total =>
      let optAmount := fun (f : String) =>
        match mapGet row.mapped f with
        | some v => if v ≠ "" then (parseAmount v).getD 0 else 0
        | none => 0
      let discounts := optAmount "discounts"
      let comps := optAmount "comps"
      let tax := optAmount "tax"
      let channelId :=
        match mapGet row.mapped "channel" with
        | some c => if c ≠ "" then some (getOrCreateChannel channels newChannelId c) else none
        | none => none
      let daypartId :=
        match mapGet row.mapped "time" with
        | some ts => if ts ≠ "" then getDaypartForTime dayparts ts else none
        | none => none
      .ok
        { locationId := locationId
          channelId := channelId
          daypartId := daypartId
          occurredAt := date
          total := total
          subtotal := total - tax
          tax := tax
          discounts := discounts
          comps := comps
          paymentMethod := (mapGet row.mapped "payment_method").getD ""
          importSource := "csv-import"
          sourceId := String.mk (fileHash.data.take 8) ++ "-" ++ toString row.lineNumber }

/-! ## Aggregation engine (cmd/worker/aggregates.go)

`refreshDayAggregates` runs two SQL statements.  The INSERT…SELECT…ON CONFLICT
is embedded as an executable relational computation over lists of domain rows:
calendar dates are abstract day numbers (`DATE` arithmetic in PostgreSQL is in
whole days), money is exact rational (the values land in `DECIMAL` columns;
scale rounding is not modelled).  The ON CONFLICT target is the unique
constraint `UNIQUE (date, location_id, channel_id, daypart_id)` of
`migrations/001_init.up.sql`; `channel_id` and `daypart_id` are nullable and
the constraint carries no `NULLS NOT DISTINCT`, so under PostgreSQL semantics
a NULL key column never matches an existing row (`nullableKeyEq`).

The labor UPDATE's scalar subquery
`SELECT SUM(labor_cost) / (end_date - start_date + 1) FROM payroll_periods …`
is embedded as an expression tree evaluated under SQL aggregate-query rules: a
bare column reference in an aggregate select list without GROUP BY is
rejected (PostgreSQL error 42803 `column must appear in the GROUP BY clause or
be used in an aggregate function`); `SUM` over zero rows is NULL. -/

/-- A `sales` row as the aggregation query reads it. -/
structure SaleRow where
  id : Nat
  locationId : Nat
  channelId : Option Nat
  daypartId : Option Nat
  day : Nat
  total : ℚ
  discounts : ℚ
  comps : ℚ
deriving Repr, DecidableEq

/-- A `sale_lines` row. -/
structure SaleLine where
  saleId : Nat
  menuItemId : Option Nat
  quantity : ℚ
deriving Repr, DecidableEq

/-- A `menu_items` row. -/
structure MenuItem where
  id : Nat
  recipeCost : ℚ
deriving Repr, DecidableEq

/-- A `payroll_periods` row. -/
structure PayrollPeriod where
  locationId : Nat
  startDay : Nat
  endDay : Nat
  laborCost : ℚ
deriving Repr, DecidableEq

/-- A `kpi_aggregates` row. -/
structure KPIAggregate where
  day : Nat
  locationId : Nat
  channelId : Option Nat
  daypartId : Option Nat
  revenue : ℚ
  cogs : ℚ
  grossMargin : ℚ
  laborCost : ℚ
  laborPct : ℚ
  opex : ℚ
  netProfit : ℚ
  covers : Nat
  avgCheck : ℚ
  discounts : ℚ
  comps : ℚ
  freshness : Nat
deriving Repr, DecidableEq

/-- The domain tables the worker reads. -/
structure DomainData where
  sales : List SaleRow
  saleLines : List SaleLine
  menuItems : List MenuItem
  payrollPeriods : List PayrollPeriod
deriving Repr, DecidableEq

/-- `LEFT JOIN sale_lines sl ON s.id = sl.sale_id`: a sale with no lines
contributes one row with a NULL line. -/
def joinedFor (saleLines : List SaleLine) (s : SaleRow) :
    List (SaleRow × Option SaleLine) :=
  match saleLines.filter (fun l => l.saleId == s.id) with
  | [] => [(s, none)]
  | matched => matched.map (fun l => (s, some l))

/-- `COALESCE(mi.recipe_cost, 0)` after `LEFT JOIN menu_items`. -/
def recipeCostOf (menuItems : List MenuItem) : Option Nat → ℚ
  | none => 0
  | some i =>
    match menuItems.find? (fun m => m.id == i) with
    | some m => m.recipeCost
    | none => 0

/-- `sl.quantity * COALESCE(mi.recipe_cost, 0)`; a NULL line contributes
nothing to the SUM. -/
def cogsContribution (menuItems : List MenuItem) :
    SaleRow × Option SaleLine → ℚ
  | (_, none) => 0
  | (_, some l) => l.quantity * recipeCostOf menuItems l.menuItemId

/-- Sum of rationals. -/
def qsum (l : List ℚ) : ℚ := l.foldl (fun a b => a + b) 0

/-- First occurrences, used for `COUNT(DISTINCT s.id)` and for the GROUP BY
key list. -/
def dedup {α : Type} [DecidableEq α] (l : List α) : List α :=
  l.foldl (fun acc k => if k ∈ acc then acc else acc ++ [k]) []

/-- One output row of the INSERT…SELECT for a (channel, daypart) group: the
aggregate expressions of the SELECT list, with `labor_cost`, `labor_pct`,
`opex` and `net_profit` hard-coded 0 and `freshness_timestamp = NOW()`. -/
def mkAggRow (menuItems : List MenuItem) (saleLines : List SaleLine)
    (day locationId now : Nat) (key : Option Nat × Option Nat)
    (groupSales : List SaleRow) : KPIAggregate :=
  let joined := groupSales.flatMap (joinedFor saleLines)
  let revenue := qsum (joined.map (fun j => j.1.total))
  let cogs := qsum (joined.map (cogsContribution menuItems))
  let covers := (dedup (groupSales.map (fun s => s.id))).length
  { day := day
    locationId := locationId
    channelId := key.1
    daypartId := key.2
    revenue := revenue
    cogs := cogs
    grossMargin := revenue - cogs
    laborCost := 0
    laborPct := 0
    opex := 0
    netProfit := 0
    covers := covers
    avgCheck := if 0 < covers then revenue / (covers : ℚ) else 0
    discounts := qsum (joined.map (fun j => j.1.discounts))
    comps := qsum (joined.map (fun j => j.1.comps))
    freshness := now }

/-- The rows produced by the INSERT…SELECT for one day and location:
`WHERE DATE(s.occurred_at) = $1 AND s.location_id = $2`, grouped by
(channel_id, daypart_id). -/
def dayGroupRows (dd : DomainData) (locationId day now : Nat) :
    List KPIAggregate :=
  let filtered := dd.sales.filter
    (fun s => decide (s.day = day ∧ s.locationId = locationId))
  (dedup (filtered.map (fun s => (s.channelId, s.daypartId)))).map
    (fun key =>
      mkAggRow dd.menuItems dd.saleLines day locationId now key
        (filtered.filter (fun s => decide ((s.channelId, s.daypartId) = key))))

/-- Unique-index column comparison for the conflict target: NULLs are
distinct, so a NULL on either side never matches. -/
def nullableKeyEq : Option Nat → Option Nat → Bool
  | some a, some b => a == b
  | _, _ => false

/-- Whether an existing row conflicts with an inserted row on
`(date, location_id, channel_id, daypart_id)`. -/
def conflictMatch (k new : KPIAggregate) : Bool :=
  k.day == new.day && k.locationId == new.locationId &&
  nullableKeyEq k.channelId new.channelId && nullableKeyEq k.daypartId new.daypartId

/-- The DO UPDATE SET list: revenue, cogs, gross_margin, covers, avg_check,
discounts, comps and the freshness timestamp are overwritten; the labor
columns, opex and net_profit are not. -/
def applyConflictUpdate (k new : KPIAggregate) : KPIAggregate :=
  { k with
    revenue := new.revenue
    cogs := new.cogs
    grossMargin := new.grossMargin
    covers := new.covers
    avgCheck := new.avgCheck
    discounts := new.discounts
    comps := new.comps
    freshness := new.freshness }

/-- Overwrite the first conflicting row (the unique index guarantees at most
one in a well-formed table). -/
def updateFirstMatch : List KPIAggregate → KPIAggregate → List KPIAggregate
  | [], _ => []
  | k :: rest, new =>
    if conflictMatch k new then applyConflictUpdate k new :: rest
    else k :: updateFirstMatch rest new

/-- Insert one row with ON CONFLICT DO UPDATE. -/
def upsertAggRow (table : List KPIAggregate) (new : KPIAggregate) :
    List KPIAggregate :=
  if table.any (fun k => conflictMatch k new) then updateFirstMatch table new
  else table ++ [new]

/-- The whole INSERT…SELECT…ON CONFLICT statement for one day. -/
def insertStep (dd : DomainData) (locationId day now : Nat)
    (table : List KPIAggregate) : List KPIAggregate :=
  (dayGroupRows dd locationId day now).foldl upsertAggRow table

/-- Select-list expressions of the labor scalar subquery. -/
inductive SqlExpr where
  | col (name : String)
  | num (q : ℚ)
  | sumAgg (e : SqlExpr)
  | add (a b : SqlExpr)
  | sub (a b : SqlExpr)
  | div (a b : SqlExpr)
deriving Repr, DecidableEq

/-- Value of a `payroll_periods` column on one row (all three columns are
declared NOT NULL). -/
def payrollCol (p : PayrollPeriod) : String → Option ℚ
  | "labor_cost" => some p.laborCost
  | "start_date" => some (p.startDay : ℚ)
  | "end_date" => some (p.endDay : ℚ)
  | _ => none

/-- Row-level evaluation, used inside an aggregate: bare columns are fine
here; a nested aggregate or unknown column is invalid. -/
def evalRowExpr (p : PayrollPeriod) : SqlExpr → Option ℚ
  | .col c => payrollCol p c
  | .num q => some q
  | .sumAgg _ => none
  | .add a b => do pure ((← evalRowExpr p a) + (← evalRowExpr p b))
  | .sub a b => do pure ((← evalRowExpr p a) - (← evalRowExpr p b))
  | .div a b => do
    let x ← evalRowExpr p a
    let y ← evalRowExpr p b
    if y = 0 then none else pure (x / y)

/-- Evaluation of an aggregate query's select-list expression over the rows
matching the WHERE clause, with no GROUP BY: a bare column reference is
rejected (PostgreSQL 42803); `SUM` of zero rows is NULL (`none`); NULL
propagates through arithmetic. -/
def evalAggSelect (rows : List PayrollPeriod) : SqlExpr → Except String (Option ℚ)
  | .col c =>
    .error ("column " ++ c ++ " must appear in the GROUP BY clause or be used in an aggregate function")
  | .num q => .ok (some q)
  | .sumAgg e =>
    match rows.mapM (fun p => evalRowExpr p e) with
    | none => .error "invalid expression inside aggregate"
    | some vs => .ok (if vs.isEmpty then none else some (qsum vs))
  | .add a b => do
    let x ← evalAggSelect rows a
    let y ← evalAggSelect rows b
    .ok (match x, y with
         | some xv, some yv => some (xv + yv)
         | _, _ => none)
  | .sub a b => do
    let x ← evalAggSelect rows a
    let y ← evalAggSelect rows b
    .ok (match x, y with
         | some xv, some yv => some (xv - yv)
         | _, _ => none)
  | .div a b => do
    let x ← evalAggSelect rows a
    let y ← evalAggSelect rows b
    match x, y with
    | some xv, some yv =>
      if yv = 0 then .error "division by zero" else .ok (some (xv / yv))
    | _, _ => .ok none

/-- The select list of the labor subquery as written in aggregates.go:
`SUM(labor_cost) / (end_date - start_date + 1)`. -/
def laborSelectExpr : SqlExpr :=
  .div (.sumAgg (.col "labor_cost"))
    (.add (.sub (.col "end_date") (.col "start_date")) (.num 1))

/-- The SET list of the labor UPDATE, given the subquery value `p.labor_cost`
(COALESCEd to 0): labor cost, labor percentage (0 when revenue is not
positive), and `net_profit = gross_margin - labor_cost - opex`. -/
def laborUpdateRow (lc : ℚ) (k : KPIAggregate) : KPIAggregate :=
  { k with
    laborCost := lc
    laborPct := if 0 < k.revenue then lc / k.revenue * 100 else 0
    netProfit := k.grossMargin - lc - k.opex }

/-- The labor UPDATE statement: rows of the day and location are updated from
the scalar subquery over payroll periods overlapping the day
(`start_date <= $1 AND end_date >= $1`); an invalid subquery fails the whole
statement, leaving the table unchanged. -/
def laborUpdate (periods : List PayrollPeriod) (day locationId : Nat)
    (table : List KPIAggregate) : Except String (List KPIAggregate) :=
  let overlapping := periods.filter
    (fun p => decide (p.startDay ≤ day ∧ day ≤ p.endDay))
  match evalAggSelect overlapping laborSelectExpr with
  | .error e => .error e
  | .ok v =>
    .ok (table.map (fun k =>
      if k.day == day && k.locationId == locationId then
        laborUpdateRow (v.getD 0) k
      else k))

/-- `refreshDayAggregates` (aggregates.go): run the upsert, then the labor
update; a failing statement leaves its effects unapplied and surfaces the
error (the caller `RefreshAggregates` logs it and moves on). -/
def refreshDayAggregates (dd : DomainData) (locationId day now : Nat)
    (table : List KPIAggregate) : List KPIAggregate × Option String :=
  let t1 := insertStep dd locationId day now table
  match laborUpdate dd.payrollPeriods day locationId t1 with
  | .ok t2 => (t2, none)
  | .error e => (t1, some e)

/-! ## Auxiliary definitions used by theorem statements -/

/-- Whether a `StartImport` outcome is the duplicate rejection. -/
def isRejectedOutcome : StartOutcome → Bool
  | .rejected _ => true
  | .created _ => false

/-- An aggregate row with its freshness timestamp erased: the claims compare
aggregation results "identical except for the freshness timestamp". -/
def stripFreshness (k : KPIAggregate) : KPIAggregate :=
  { k with freshness := 0 }

/-- A whole table modulo freshness. -/
def stripTable (table : List KPIAggregate) : List KPIAggregate :=
  table.map stripFreshness

/-- Replace a row's freshness timestamp. -/
def setFresh (t : Nat) (k : KPIAggregate) : KPIAggregate :=
  { k with freshness := t }

/-- The first row of a table conflicting with `g` (the row ON CONFLICT would
update). -/
def firstAggMatch (table : List KPIAggregate) (g : KPIAggregate) :
    Option KPIAggregate :=
  table.find? (fun k => conflictMatch k g)

/-- The seven columns the upsert overwrites agree between `g` and `r`. -/
def coreEq (g r : KPIAggregate) : Prop :=
  r.revenue = g.revenue ∧ r.cogs = g.cogs ∧ r.grossMargin = g.grossMargin ∧
  r.covers = g.covers ∧ r.avgCheck = g.avgCheck ∧ r.discounts = g.discounts ∧
  r.comps = g.comps

/-- The table already holds `g`'s values at the row its upsert would hit. -/
def FirstMatchCore (table : List KPIAggregate) (g : KPIAggregate) : Prop :=
  ∃ r, firstAggMatch table g = some r ∧ coreEq g r

/-- The parsed rows `Parse` keeps, described line by line: a record of the
wrong width is dropped (advancing the line counter), any other record becomes
a `parseRow` result at its 1-based line number. -/
def parseSpecRowsFrom (sourceType : String) (mapping : Option MappingProfile)
    (headers : List String) : List (List String) → Nat → List ParsedRow
  | [], _ => []
  | record :: rest, lineNum =>
    if record.length ≠ headers.length then
      parseSpecRowsFrom sourceType mapping headers rest (lineNum + 1)
    else
      parseRow sourceType mapping headers record (lineNum + 1) ::
        parseSpecRowsFrom sourceType mapping headers rest (lineNum + 1)

/-- The breakfast/lunch/dinner windows of the spec's examples
(07:00–11:00, 11:00–15:00, 15:00–20:00), in minutes. -/
def standardDayparts : List Daypart :=
  [⟨1, 420, 660⟩, ⟨2, 660, 900⟩, ⟨3, 900, 1200⟩]

/-! ## Theorems -/

attribute [local semireducible] Rat.add Rat.mul Rat.sub Rat.inv

/-- C2: the claim says a parser run without a mapping profile falls back to
the hard-coded per-source-type default column mapping (`DefaultMappings`), so
field `date` receives the value under header `Date`.  The code does not:
`parseRow` applies a mapping only when a profile is present, so with no
profile the mapped-field map stays empty and every row fails required-field
validation — even though the default pos mapping (which the mappings API
exposes) would have mapped `Date → date`.  Failing input: source type `pos`,
no profile, header `Date,Total`, row `2024-01-02,10.00`. -/
theorem C2_default_mapping_not_applied :
    Parse "pos" none [[ "Date", "Total" ], [ "2024-01-02", "10.00" ]] =
      some ⟨[ "Date", "Total" ],
        [⟨2, [("Date", "2024-01-02"), ("Total", "10.00")], [],
          [missingFieldMsg "date", missingFieldMsg "total"]⟩],
        0, 1, 1⟩ ∧
    (DefaultMappings.lookup "pos").map
      (fun cm =>
        mapGet (applyMapping ⟨cm, []⟩
          (buildRaw [ "Date", "Total" ] [ "2024-01-02", "10.00" ])) "date") =
      some (some "2024-01-02") := by
  decide

/-- C5: the claim's row invariant `net_profit = gross_margin − labor_cost −
opex` fails on rows the aggregation run produces.  The INSERT hard-codes
`net_profit = 0`, and the follow-up labor UPDATE that would compute it is
rejected by PostgreSQL (its scalar subquery references the non-grouped
columns `end_date`/`start_date` next to `SUM`), so a day with one sale of 100
and no sale lines yields `gross_margin = 100` but `net_profit = 0`. -/
theorem C5_net_profit_invariant_violated :
    (refreshDayAggregates ⟨[⟨1, 5, some 7, some 8, 2, 100, 0, 0⟩], [], [], []⟩
        5 2 11 []).1 =
      [⟨2, 5, some 7, some 8, 100, 0, 100, 0, 0, 0, 0, 1, 100, 0, 0, 11⟩] ∧
    ¬ ((0 : ℚ) = 100 - 0 - 0) := by
  decide

/-- C6: the claim says a day's labor cost equals the sum over overlapping
payroll periods of period cost divided by period length; for a single period
of 7 days costing 700 covering the day, that is 100.  The code's labor UPDATE
is rejected by PostgreSQL (error 42803: `SUM(labor_cost) / (end_date -
start_date + 1)` references non-grouped columns), so the day's aggregate row
keeps `labor_cost = 0` and the per-day refresh reports the error. -/
theorem C6_labor_allocation_never_applied :
    (refreshDayAggregates
        ⟨[⟨1, 5, some 7, some 8, 2, 50, 0, 0⟩], [], [], [⟨5, 0, 6, 700⟩]⟩
        5 2 11 []).2 =
      some "column end_date must appear in the GROUP BY clause or be used in an aggregate function" ∧
    (refreshDayAggregates
        ⟨[⟨1, 5, some 7, some 8, 2, 50, 0, 0⟩], [], [], [⟨5, 0, 6, 700⟩]⟩
        5 2 11 []).1 =
      [⟨2, 5, some 7, some 8, 50, 0, 50, 0, 0, 0, 0, 1, 50, 0, 0, 11⟩] ∧
    (700 : ℚ) / (6 - 0 + 1) = 100 ∧ ¬ ((0 : ℚ) = 100) := by
  decide

/-- C3 counterexample: a call whose content hash belongs to a *completed* job
is nevertheless accepted when a more recently created job with the same hash
and location is not completed — the duplicate check consults only the most
recent job.  Store: job 10 completed (created at 1), job 11 failed (created
at 2), both hash `h` at location 5; a new call with the same content creates
a third, pending job. -/
theorem C3_completed_job_missed_counterexample :
    (⟨10, "pos", "completed", "a.csv", "h", 3, 3, 0, 5, none, 1, 1⟩ : ImportJob).status = "completed" ∧
    (StartImport (fun _ => "h")
        [⟨10, "pos", "completed", "a.csv", "h", 3, 3, 0, 5, none, 1, 1⟩,
         ⟨11, "pos", "failed", "a.csv", "h", 0, 0, 0, 5, none, 1, 2⟩]
        99 9 ⟨"pos", "a.csv", [1], 5, none, 1⟩).1 =
      .created ⟨99, "pos", "pending", "a.csv", "h", 0, 0, 0, 5, none, 1, 9⟩ ∧
    (StartImport (fun _ => "h")
        [⟨10, "pos", "completed", "a.csv", "h", 3, 3, 0, 5, none, 1, 1⟩,
         ⟨11, "pos", "failed", "a.csv", "h", 0, 0, 0, 5, none, 1, 2⟩]
        99 9 ⟨"pos", "a.csv", [1], 5, none, 1⟩).2.length = 3 := by
  decide

/-- C4 counterexample: recomputing a day twice with unchanged data is *not*
idempotent when a group key carries a NULL channel and daypart: the plain
`UNIQUE` conflict target never matches NULL key columns (PostgreSQL treats
NULLs as distinct), so the second run appends a duplicate row instead of
updating — the resulting tables differ even after erasing freshness. -/
theorem C4_null_key_duplication_counterexample :
    stripTable
        (refreshDayAggregates ⟨[⟨1, 5, none, none, 2, 100, 0, 0⟩], [], [], []⟩ 5 2 12
          (refreshDayAggregates ⟨[⟨1, 5, none, none, 2, 100, 0, 0⟩], [], [], []⟩ 5 2 11 []).1).1 ≠
      stripTable
        (refreshDayAggregates ⟨[⟨1, 5, none, none, 2, 100, 0, 0⟩], [], [], []⟩ 5 2 11 []).1 := by
  decide

/-- C9 counterexample: a malformed CSV line (wrong field count, line 3) does
not abort parsing — the following row is parsed, at its correct line number —
but it leaves no trace: it is missing from the parsed rows and the total row
count, and a subsequent `ProcessImport` (all upserts succeeding) records no
anomaly at all, so the dropped line is untraceable. -/
theorem C9_no_trace_counterexample :
    (Parse "pos" (some ⟨[("Date", "date"), ("Total", "total")], []⟩)
        [[ "Date", "Total" ], [ "2024-01-02", "10.00" ], [ "bad" ],
         [ "2024-01-03", "20.00" ]]).map
      (fun r => (r.totalRows, r.rows.map (fun row => row.lineNumber))) =
      some (2, [2, 4]) ∧
    (Parse "pos" (some ⟨[("Date", "date"), ("Total", "total")], []⟩)
        [[ "Date", "Total" ], [ "2024-01-02", "10.00" ], [ "bad" ],
         [ "2024-01-03", "20.00" ]]).map
      (fun r => (ProcessImport r (fun _ => none)).anomalies) =
      some [] := by
  decide

/-- The parse loop keeps `totalRows` equal to the number of accumulated rows
and `errorRows` equal to the number of accumulated rows with a validation
error. -/
theorem parseLoop_counts (sourceType : String) (mapping : Option MappingProfile)
    (headers : List String) :
    ∀ (recs : List (List String)) (n : Nat) (acc : ParseResult),
      acc.totalRows = acc.rows.length →
      acc.errorRows = (acc.rows.filter (fun r => ! r.errors.isEmpty)).length →
      (parseLoop sourceType mapping headers recs n acc).totalRows
          = (parseLoop sourceType mapping headers recs n acc).rows.length ∧
      (parseLoop sourceType mapping headers recs n acc).errorRows
          = ((parseLoop sourceType mapping headers recs n acc).rows.filter
              (fun r => ! r.errors.isEmpty)).length
  | [], _, acc, ht, he => by
    simpa [parseLoop] using ⟨ht, he⟩
  | record :: rest, n, acc, ht, he => by
    rw [parseLoop]
    by_cases hw : record.length ≠ headers.length
    · rw [if_pos hw]
      exact parseLoop_counts sourceType mapping headers rest (n + 1) acc ht he
    · rw [if_neg hw]
      apply parseLoop_counts
      · simp [ht]
      · by_cases hv : (parseRow sourceType mapping headers record (n + 1)).errors.isEmpty <;>
          simp [hv, he, List.filter_append]

/-- One `ProcessImport` loop iteration adds exactly one to
`processedRows + errorRows` for a valid row and nothing for an invalid one,
and leaves status and total untouched. -/
theorem processStep_counts (upsertErr : ParsedRow → Option String)
    (acc : ProcessResult) (row : ParsedRow) :
    (processStep upsertErr acc row).processedRows + (processStep upsertErr acc row).errorRows
        = acc.processedRows + acc.errorRows + (if row.errors.isEmpty then 1 else 0) ∧
    (processStep upsertErr acc row).status = acc.status ∧
    (processStep upsertErr acc row).totalRows = acc.totalRows := by
  cases hv : row.errors.isEmpty
  · cases hu : upsertErr row
    · simp [processStep, rowDisposition, hv, hu]
    · simp [processStep, rowDisposition, hv, hu]
  · cases hu : upsertErr row
    · simp [processStep, rowDisposition, hv, hu]
      omega
    · simp [processStep, rowDisposition, hv, hu]
      omega

/-- Folding the `ProcessImport` loop over a row list adds the number of valid
rows to `processedRows + errorRows`. -/
theorem processFold_counts (upsertErr : ParsedRow → Option String) :
    ∀ (rows : List ParsedRow) (acc : ProcessResult),
      (rows.foldl (processStep upsertErr) acc).processedRows
          + (rows.foldl (processStep upsertErr) acc).errorRows
        = acc.processedRows + acc.errorRows
          + (rows.filter (fun r => r.errors.isEmpty)).length ∧
      (rows.foldl (processStep upsertErr) acc).status = acc.status ∧
      (rows.foldl (processStep upsertErr) acc).totalRows = acc.totalRows
  | [], acc => by simp
  | row :: rest, acc => by
    have hstep := processStep_counts upsertErr acc row
    have hrec := processFold_counts upsertErr rest (processStep upsertErr acc row)
    refine ⟨?_, ?_, ?_⟩
    · rw [List.foldl_cons, hrec.1, hstep.1]
      cases hv : row.errors.isEmpty
      · simp [hv]
      · simp [hv]
        omega
    · rw [List.foldl_cons, hrec.2.1, hstep.2.1]
    · rw [List.foldl_cons, hrec.2.2, hstep.2.2]

/-- C1: for every import job that completes, `processed_rows + error_rows =
total_rows`, the total equals the number of parsed data rows (each counted
exactly once as processed or error), and the job status is `completed` —
for any parse outcome and any behavior of the domain upserts. -/
theorem C1_completed_row_counts (sourceType : String)
    (mapping : Option MappingProfile) (file : List (List String))
    (res : ParseResult) (upsertErr : ParsedRow → Option String)
    (h : Parse sourceType mapping file = some res) :
    (ProcessImport res upsertErr).processedRows + (ProcessImport res upsertErr).errorRows
        = (ProcessImport res upsertErr).totalRows ∧
    (ProcessImport res upsertErr).totalRows = res.rows.length ∧
    (ProcessImport res upsertErr).status = "completed" := by
  match file with
  | [] => simp [Parse] at h
  | headerRecord :: dataRecords =>
    rw [Parse] at h
    have hinv := parseLoop_counts sourceType mapping (headerRecord.map trimString)
      dataRecords 1 ⟨headerRecord.map trimString, [], 0, 0, 0⟩ rfl rfl
    rw [Option.some_inj] at h
    rw [h] at hinv
    have hfold := processFold_counts upsertErr res.rows
      ⟨res.totalRows, 0, res.errorRows, "completed", [], []⟩
    refine ⟨?_, ?_, hfold.2.1⟩
    · rw [ProcessImport] at *
      rw [hfold.1, hfold.2.2]
      have hsplit := List.length_eq_length_filter_add
        (l := res.rows) (fun r => r.errors.isEmpty)
      rw [hinv.1, hinv.2]
      simp only at hsplit ⊢
      omega
    · rw [ProcessImport, hfold.2.2, hinv.1]

/-- Witness for C1 at a concrete one-row file whose row is valid. -/
theorem C1_completed_row_counts_witness :
    (ProcessImport ⟨[ "A" ], [⟨2, [("A", "x")], [], []⟩], 1, 0, 1⟩ (fun _ => none)).processedRows
        + (ProcessImport ⟨[ "A" ], [⟨2, [("A", "x")], [], []⟩], 1, 0, 1⟩ (fun _ => none)).errorRows
        = (ProcessImport ⟨[ "A" ], [⟨2, [("A", "x")], [], []⟩], 1, 0, 1⟩ (fun _ => none)).totalRows ∧
    (ProcessImport ⟨[ "A" ], [⟨2, [("A", "x")], [], []⟩], 1, 0, 1⟩ (fun _ => none)).totalRows
        = (⟨[ "A" ], [⟨2, [("A", "x")], [], []⟩], 1, 0, 1⟩ : ParseResult).rows.length ∧
    (ProcessImport ⟨[ "A" ], [⟨2, [("A", "x")], [], []⟩], 1, 0, 1⟩ (fun _ => none)).status
        = "completed" :=
  C1_completed_row_counts "zzz" none [[ "A" ], [ "x" ]] _ (fun _ => none) (by decide)

/-- A numeric-format field whose value is absent, empty, or parseable
contributes no error to the `numericErrors` fold. -/
theorem numericErrors_step_skip (mapped : SMap) (f : String) (acc : List String)
    (hf : ∀ v, mapGet mapped f = some v → v ≠ "" → parseAmount v ≠ none) :
    (match mapGet mapped f with
     | some v => if v ≠ "" ∧ parseAmount v = none then acc ++ [invalidNumMsg f v] else acc
     | none => acc) = acc := by
  cases hm : mapGet mapped f
  · rfl
  · rename_i v
    simp only
    rw [if_neg]
    rintro ⟨hv1, hv2⟩
    exact hf v hm hv1 hv2

/-- C7: a pos row whose `total` is present but unparseable — and which is
otherwise well-formed (date present and parseable, every other numeric field
absent, empty or parseable) — gets exactly one validation error, the
`invalid numeric value for total` message; inside the `ProcessImport` loop it
yields exactly one anomaly, with severity `error` and that message, and is
never dispatched to a domain upserter. -/
theorem C7_unparseable_total_one_anomaly (row : ParsedRow)
    (upsertErr : ParsedRow → Option String) (ds tv : String) (dt : GoDate)
    (hds : mapGet row.mapped "date" = some ds) (hdne : ds ≠ "")
    (hdp : parseDate ds = some dt)
    (hts : mapGet row.mapped "total" = some tv) (htne : tv ≠ "")
    (htp : parseAmount tv = none)
    (hdisc : ∀ v, mapGet row.mapped "discounts" = some v → v ≠ "" → parseAmount v ≠ none)
    (hcomp : ∀ v, mapGet row.mapped "comps" = some v → v ≠ "" → parseAmount v ≠ none)
    (htax : ∀ v, mapGet row.mapped "tax" = some v → v ≠ "" → parseAmount v ≠ none)
    (herr : row.errors = validatePOSRow row.mapped) :
    row.errors = [invalidNumMsg "total" tv] ∧
    rowDisposition row upsertErr =
      ⟨[⟨row.lineNumber, "error", invalidNumMsg "total" tv⟩], false, false⟩ := by
  have h1 : requiredErrors row.mapped [ "date", "total" ] = [] := by
    simp only [requiredErrors, List.foldl_cons, List.foldl_nil, hds, hts]
    rw [if_neg hdne, if_neg htne]
  have h2 : (match mapGet row.mapped "date" with
             | some v => if v ≠ "" ∧ parseDate v = none then [invalidDateMsg v] else []
             | none => []) = ([] : List String) := by
    rw [hds]
    simp only
    rw [if_neg]
    rintro ⟨-, hc⟩
    rw [hdp] at hc
    exact Option.noConfusion hc
  have h3 : numericErrors row.mapped [ "total", "discounts", "comps", "tax" ]
      = [invalidNumMsg "total" tv] := by
    simp only [numericErrors, List.foldl_cons, List.foldl_nil, hts]
    rw [if_pos ⟨htne, htp⟩]
    rw [numericErrors_step_skip row.mapped "discounts" _ hdisc,
        numericErrors_step_skip row.mapped "comps" _ hcomp,
        numericErrors_step_skip row.mapped "tax" _ htax]
    rfl
  have hval : validatePOSRow row.mapped = [invalidNumMsg "total" tv] := by
    rw [validatePOSRow, h1, h2, h3]
    rfl
  have herr' : row.errors = [invalidNumMsg "total" tv] := herr.trans hval
  refine ⟨herr', ?_⟩
  rw [rowDisposition, herr']
  rfl

/-- Witness for C7 at the row `date = 2024-01-02, total = "abc"`. -/
theorem C7_unparseable_total_one_anomaly_witness :
    (⟨2, [], [("date", "2024-01-02"), ("total", "abc")],
        validatePOSRow [("date", "2024-01-02"), ("total", "abc")]⟩ : ParsedRow).errors
      = [invalidNumMsg "total" "abc"] ∧
    rowDisposition
        ⟨2, [], [("date", "2024-01-02"), ("total", "abc")],
          validatePOSRow [("date", "2024-01-02"), ("total", "abc")]⟩ (fun _ => none) =
      ⟨[⟨2, "error", invalidNumMsg "total" "abc"⟩], false, false⟩ :=
  C7_unparseable_total_one_anomaly
    ⟨2, [], [("date", "2024-01-02"), ("total", "abc")],
      validatePOSRow [("date", "2024-01-02"), ("total", "abc")]⟩
    (fun _ => none) "2024-01-02" "abc" ⟨2024, 1, 2, 0, 0, 0⟩
    (by decide) (by decide) (by decide) (by decide) (by decide) (by decide)
    (by intro v h
        rw [(by decide : mapGet [("date", "2024-01-02"), ("total", "abc")] "discounts" = none)] at h
        exact absurd h (by simp))
    (by intro v h
        rw [(by decide : mapGet [("date", "2024-01-02"), ("total", "abc")] "comps" = none)] at h
        exact absurd h (by simp))
    (by intro v h
        rw [(by decide : mapGet [("date", "2024-01-02"), ("total", "abc")] "tax" = none)] at h
        exact absurd h (by simp))
    rfl

/-- A daypart returned by `getDaypartForTime` is one of the configured windows
and contains the parsed time under half-open semantics. -/
theorem getDaypart_some_mem (dayparts : List Daypart) (ts : String) (t id : Nat)
    (hp : parseTimeOfDay ts = some t)
    (hg : getDaypartForTime dayparts ts = some id) :
    ∃ d ∈ dayparts, d.id = id ∧ d.startMinutes ≤ t ∧ t < d.endMinutes := by
  rw [getDaypartForTime, hp] at hg
  simp only at hg
  obtain ⟨d0, hd0, hid⟩ := Option.map_eq_some'.mp hg
  cases hl : dayparts.filter (fun d => decide (d.startMinutes ≤ t ∧ t < d.endMinutes)) with
  | nil =>
    rw [hl] at hd0
    exact absurd hd0 (by simp)
  | cons d rest =>
    rw [hl] at hd0
    have hdd : d = d0 := by simpa [List.head?] using hd0
    have hmem : d ∈ dayparts.filter (fun d => decide (d.startMinutes ≤ t ∧ t < d.endMinutes)) := by
      rw [hl]; exact List.mem_cons_self d rest
    rw [List.mem_filter] at hmem
    refine ⟨d, hmem.1, ?_, of_decide_eq_true hmem.2⟩
    rw [hdd, hid]

/-- A parsed time contained in no window resolves to no daypart. -/
theorem getDaypart_none_of_no_window (dayparts : List Daypart) (ts : String) (t : Nat)
    (hp : parseTimeOfDay ts = some t)
    (hnw : ∀ d ∈ dayparts, ¬ (d.startMinutes ≤ t ∧ t < d.endMinutes)) :
    getDaypartForTime dayparts ts = none := by
  rw [getDaypartForTime, hp]
  simp only
  have hnil : dayparts.filter (fun d => decide (d.startMinutes ≤ t ∧ t < d.endMinutes)) = [] := by
    rw [List.filter_eq_nil_iff]
    intro d hd
    simpa using hnw d hd
  rw [hnil]
  rfl

/-- C8: daypart windows are matched half-open (`start ≤ t < end`): any
assigned daypart is a configured window containing the time; with the
standard breakfast/lunch/dinner windows, `13:30` and `14:59` resolve to
lunch and `15:00` to dinner; and a time contained in no window leaves the
daypart unset while `processPOSRow` still succeeds on the row. -/
theorem C8_daypart_halfopen_resolution :
    (∀ (dayparts : List Daypart) (ts : String) (t id : Nat),
        parseTimeOfDay ts = some t →
        getDaypartForTime dayparts ts = some id →
        ∃ d ∈ dayparts, d.id = id ∧ d.startMinutes ≤ t ∧ t < d.endMinutes) ∧
    (∀ (dayparts : List Daypart) (ts : String) (t : Nat),
        parseTimeOfDay ts = some t →
        (∀ d ∈ dayparts, ¬ (d.startMinutes ≤ t ∧ t < d.endMinutes)) →
        getDaypartForTime dayparts ts = none) ∧
    (getDaypartForTime standardDayparts "13:30" = some 2 ∧
     getDaypartForTime standardDayparts "14:59" = some 2 ∧
     getDaypartForTime standardDayparts "15:00" = some 3) ∧
    (∀ (fileHash : String) (locationId : Nat) (channels : List (String × Nat))
        (newChannelId : Nat) (dayparts : List Daypart) (row : ParsedRow)
        (ts : String) (t : Nat) (dt : GoDate) (total : ℚ),
        parseDate ((mapGet row.mapped "date").getD "") = some dt →
        parseAmount ((mapGet row.mapped "total").getD "") = some total →
        mapGet row.mapped "time" = some ts →
        parseTimeOfDay ts = some t →
        (∀ d ∈ dayparts, ¬ (d.startMinutes ≤ t ∧ t < d.endMinutes)) →
        ∃ s, processPOSRow fileHash locationId channels newChannelId dayparts row = .ok s ∧
          s.daypartId = none) := by
  refine ⟨getDaypart_some_mem, getDaypart_none_of_no_window, by decide, ?_⟩
  intro fileHash locationId channels newChannelId dayparts row ts t dt total
    hd ht hts hp hnw
  rw [processPOSRow, hd, ht]
  simp only
  refine ⟨_, rfl, ?_⟩
  simp only [hts]
  by_cases hts0 : ts = ""
  · rw [if_neg]
    simp [hts0]
  · rw [if_pos hts0]
    exact getDaypart_none_of_no_window dayparts ts t hp hnw

/-- Witness for C8: the standard windows at `13:30` (lunch), at `22:00`
(no window → no daypart), and a full `processPOSRow` run whose time matches
no window yet succeeds. -/
theorem C8_daypart_halfopen_resolution_witness :
    (∃ d ∈ standardDayparts, d.id = 2 ∧ d.startMinutes ≤ 810 ∧ 810 < d.endMinutes) ∧
    getDaypartForTime standardDayparts "22:00" = none ∧
    (∃ s, processPOSRow "aaaabbbbcccc" 5 [] 77 standardDayparts
        ⟨2, [], [("date", "2024-01-02"), ("total", "10.00"), ("time", "22:00")], []⟩ = .ok s ∧
      s.daypartId = none) :=
  ⟨C8_daypart_halfopen_resolution.1 standardDayparts "13:30" 810 2 (by decide) (by decide),
   C8_daypart_halfopen_resolution.2.1 standardDayparts "22:00" 1320 (by decide) (by decide),
   C8_daypart_halfopen_resolution.2.2.2 "aaaabbbbcccc" 5 [] 77 standardDayparts
     ⟨2, [], [("date", "2024-01-02"), ("total", "10.00"), ("time", "22:00")], []⟩
     "22:00" 1320 ⟨2024, 1, 2, 0, 0, 0⟩ 10
     (by decide) (by decide) (by decide) (by decide) (by decide)⟩

/-- C3 (amended): `StartImport` rejects exactly when the *most recently
created* job with the same file hash and location is `completed`, returning
that job and leaving the job table unchanged; in every other case — no prior
job, or the most recent one not completed, even if an older completed job
with the same hash exists — a new job in state `pending` is created and
appended. -/
theorem C3_amended_duplicate_check :
    (∀ (hashFn : List Nat → String) (jobs : List ImportJob) (newId now : Nat)
        (p : ImportParams) (j : ImportJob),
        GetByFileHash jobs (hashFn p.content) p.locationId = some j →
        j.status = "completed" →
        StartImport hashFn jobs newId now p = (.rejected j, jobs)) ∧
    (∀ (hashFn : List Nat → String) (jobs : List ImportJob) (newId now : Nat)
        (p : ImportParams) (j : ImportJob),
        GetByFileHash jobs (hashFn p.content) p.locationId = some j →
        j.status ≠ "completed" →
        StartImport hashFn jobs newId now p =
          (.created (newJobFor p (hashFn p.content) newId now),
           jobs ++ [newJobFor p (hashFn p.content) newId now])) ∧
    (∀ (hashFn : List Nat → String) (jobs : List ImportJob) (newId now : Nat)
        (p : ImportParams),
        GetByFileHash jobs (hashFn p.content) p.locationId = none →
        StartImport hashFn jobs newId now p =
          (.created (newJobFor p (hashFn p.content) newId now),
           jobs ++ [newJobFor p (hashFn p.content) newId now])) ∧
    (∀ (p : ImportParams) (h : String) (newId now : Nat),
        (newJobFor p h newId now).status = "pending") := by
  refine ⟨?_, ?_, ?_, ?_⟩
  · intro hashFn jobs newId now p j hj hc
    rw [StartImport]
    simp only [hj]
    rw [if_pos hc]
  · intro hashFn jobs newId now p j hj hc
    rw [StartImport]
    simp only [hj]
    rw [if_neg hc]
  · intro hashFn jobs newId now p hj
    rw [StartImport]
    simp only [hj]
  · intro p h newId now
    rfl

/-- Witness for C3 (amended): a store whose only matching job is completed
rejects; an empty store creates a pending job. -/
theorem C3_amended_duplicate_check_witness :
    StartImport (fun _ => "h")
        [⟨10, "pos", "completed", "a.csv", "h", 3, 3, 0, 5, none, 1, 1⟩] 99 9
        ⟨"pos", "a.csv", [1], 5, none, 1⟩ =
      (.rejected ⟨10, "pos", "completed", "a.csv", "h", 3, 3, 0, 5, none, 1, 1⟩,
       [⟨10, "pos", "completed", "a.csv", "h", 3, 3, 0, 5, none, 1, 1⟩]) ∧
    StartImport (fun _ => "h") [] 99 9 ⟨"pos", "a.csv", [1], 5, none, 1⟩ =
      (.created (newJobFor ⟨"pos", "a.csv", [1], 5, none, 1⟩ "h" 99 9),
       [newJobFor ⟨"pos", "a.csv", [1], 5, none, 1⟩ "h" 99 9]) ∧
    (newJobFor ⟨"pos", "a.csv", [1], 5, none, 1⟩ "h" 99 9).status = "pending" :=
  ⟨C3_amended_duplicate_check.1 (fun _ => "h")
      [⟨10, "pos", "completed", "a.csv", "h", 3, 3, 0, 5, none, 1, 1⟩] 99 9
      ⟨"pos", "a.csv", [1], 5, none, 1⟩
      ⟨10, "pos", "completed", "a.csv", "h", 3, 3, 0, 5, none, 1, 1⟩
      (by decide) (by decide),
   (C3_amended_duplicate_check.2.2.1 (fun _ => "h") [] 99 9
      ⟨"pos", "a.csv", [1], 5, none, 1⟩ (by decide)).trans (by decide),
   C3_amended_duplicate_check.2.2.2 ⟨"pos", "a.csv", [1], 5, none, 1⟩ "h" 99 9⟩

/-- C10: the duplicate-upload check ignores the declared source type — the
accept/reject outcome of `StartImport` is unchanged under any change of
`sourceType` (the lookup is keyed only by file hash and location), and in the
two-call scenario a completed prior job with the same content and location
causes rejection even under a different declared source type. -/
theorem C10_duplicate_check_ignores_source_type :
    (∀ (hashFn : List Nat → String) (jobs : List ImportJob) (newId now : Nat)
        (p : ImportParams) (st : String),
        isRejectedOutcome (StartImport hashFn jobs newId now p).1 =
          isRejectedOutcome (StartImport hashFn jobs newId now { p with sourceType := st }).1) ∧
    (∀ (hashFn : List Nat → String) (j : ImportJob) (newId now : Nat)
        (p : ImportParams),
        j.fileHash = hashFn p.content → j.locationId = p.locationId →
        j.status = "completed" →
        StartImport hashFn [j] newId now p = (.rejected j, [j])) := by
  constructor
  · intro hashFn jobs newId now p st
    rw [StartImport, StartImport]
    simp only
    cases hq : GetByFileHash jobs (hashFn p.content) p.locationId with
    | none => rfl
    | some j =>
      simp only
      by_cases hc : j.status = "completed"
      · rw [if_pos hc, if_pos hc]
      · rw [if_neg hc, if_neg hc]
        rfl
  · intro hashFn j newId now p hfh hloc hc
    have hg : GetByFileHash [j] (hashFn p.content) p.locationId = some j := by
      rw [GetByFileHash]
      have : (fun jb => decide (jb.fileHash = hashFn p.content ∧ jb.locationId = p.locationId)) j
          = true := by
        simp [hfh, hloc]
      simp [List.filter, this]
    rw [StartImport]
    simp only [hg]
    rw [if_pos hc]

/-- Witness for C10: first call imports as `pos` and completes; the second
call with identical content declared as `payroll` is rejected. -/
theorem C10_duplicate_check_ignores_source_type_witness :
    isRejectedOutcome (StartImport (fun _ => "h")
        [⟨10, "pos", "completed", "a.csv", "h", 3, 3, 0, 5, none, 1, 1⟩] 99 9
        ⟨"pos", "b.csv", [1], 5, none, 1⟩).1 =
      isRejectedOutcome (StartImport (fun _ => "h")
        [⟨10, "pos", "completed", "a.csv", "h", 3, 3, 0, 5, none, 1, 1⟩] 99 9
        { (⟨"pos", "b.csv", [1], 5, none, 1⟩ : ImportParams) with sourceType := "payroll" }).1 ∧
    StartImport (fun _ => "h")
        [⟨10, "pos", "completed", "a.csv", "h", 3, 3, 0, 5, none, 1, 1⟩] 99 9
        ⟨"payroll", "b.csv", [1], 5, none, 1⟩ =
      (.rejected ⟨10, "pos", "completed", "a.csv", "h", 3, 3, 0, 5, none, 1, 1⟩,
       [⟨10, "pos", "completed", "a.csv", "h", 3, 3, 0, 5, none, 1, 1⟩]) :=
  ⟨C10_duplicate_check_ignores_source_type.1 (fun _ => "h")
      [⟨10, "pos", "completed", "a.csv", "h", 3, 3, 0, 5, none, 1, 1⟩] 99 9
      ⟨"pos", "b.csv", [1], 5, none, 1⟩ "payroll",
   C10_duplicate_check_ignores_source_type.2 (fun _ => "h")
      ⟨10, "pos", "completed", "a.csv", "h", 3, 3, 0, 5, none, 1, 1⟩ 99 9
      ⟨"payroll", "b.csv", [1], 5, none, 1⟩ (by decide) (by decide) (by decide)⟩

/-- Nullable key comparison is transitive through a common left operand. -/
theorem nullableKeyEq_trans {a b c : Option Nat}
    (h1 : nullableKeyEq a b = true) (h2 : nullableKeyEq a c = true) :
    nullableKeyEq b c = true := by
  cases a <;> cases b <;> cases c <;>
    simp_all [nullableKeyEq]

/-- Conflicting with a common row makes two inserted rows conflict with each
other. -/
theorem conflictMatch_trans {r g g2 : KPIAggregate}
    (h1 : conflictMatch r g = true) (h2 : conflictMatch r g2 = true) :
    conflictMatch g g2 = true := by
  rw [conflictMatch, Bool.and_eq_true, Bool.and_eq_true, Bool.and_eq_true] at h1 h2 ⊢
  refine ⟨⟨⟨?_, ?_⟩, ?_⟩, ?_⟩
  · have e1 : r.day = g.day := beq_iff_eq.mp h1.1.1.1
    have e2 : r.day = g2.day := beq_iff_eq.mp h2.1.1.1
    exact beq_iff_eq.mpr (e1.symm.trans e2)
  · have e1 : r.locationId = g.locationId := beq_iff_eq.mp h1.1.1.2
    have e2 : r.locationId = g2.locationId := beq_iff_eq.mp h2.1.1.2
    exact beq_iff_eq.mpr (e1.symm.trans e2)
  · exact nullableKeyEq_trans h1.1.2 h2.1.2
  · exact nullableKeyEq_trans h1.2 h2.2

/-- A row with both nullable key columns present conflicts with itself. -/
theorem conflictMatch_self {g : KPIAggregate}
    (h1 : g.channelId.isSome) (h2 : g.daypartId.isSome) :
    conflictMatch g g = true := by
  obtain ⟨a, ha⟩ := Option.isSome_iff_exists.mp h1
  obtain ⟨b, hb⟩ := Option.isSome_iff_exists.mp h2
  simp [conflictMatch, nullableKeyEq, ha, hb]

/-- The conflict-update changes no key column, so conflict status against any
row is unchanged. -/
theorem conflictMatch_applyConflictUpdate (k g x : KPIAggregate) :
    conflictMatch (applyConflictUpdate k g) x = conflictMatch k x := rfl

/-- Updating the row `g` hits with its own values leaves the table unchanged
modulo freshness. -/
theorem updateFirstMatch_strip (g : KPIAggregate) :
    ∀ (table : List KPIAggregate), FirstMatchCore table g →
      stripTable (updateFirstMatch table g) = stripTable table
  | [], h => by
    obtain ⟨r, hr, -⟩ := h
    exact absurd hr (by simp [firstAggMatch])
  | k :: rest, h => by
    obtain ⟨r, hr, hcore⟩ := h
    cases hk : conflictMatch k g with
    | true =>
      rw [firstAggMatch, List.find?_cons] at hr
      simp only [hk] at hr
      obtain rfl : k = r := by simpa using hr
      obtain ⟨e1, e2, e3, e4, e5, e6, e7⟩ := hcore
      rw [updateFirstMatch, if_pos hk]
      rw [stripTable, stripTable, List.map_cons, List.map_cons]
      simp [stripFreshness, applyConflictUpdate, e1, e2, e3, e4, e5, e6, e7]
    | false =>
      rw [firstAggMatch, List.find?_cons] at hr
      simp only [hk] at hr
      rw [updateFirstMatch, if_neg (by simp [hk])]
      rw [stripTable, stripTable, List.map_cons, List.map_cons]
      rw [show List.map stripFreshness (updateFirstMatch rest g) = stripTable (updateFirstMatch rest g) from rfl]
      rw [updateFirstMatch_strip g rest ⟨r, hr, hcore⟩]
      rfl

/-- Upserting a row whose values the table already holds at its conflict row
is a no-op modulo freshness. -/
theorem upsertAggRow_noop {table : List KPIAggregate} {g : KPIAggregate}
    (h : FirstMatchCore table g) :
    stripTable (upsertAggRow table g) = stripTable table := by
  obtain ⟨r, hr, hcore⟩ := h
  have hmem := List.mem_of_find?_eq_some hr
  have hpred := List.find?_some hr
  have hany : table.any (fun k => conflictMatch k g) = true :=
    List.any_eq_true.mpr ⟨r, hmem, hpred⟩
  rw [upsertAggRow, if_pos hany]
  exact updateFirstMatch_strip g table ⟨r, hr, hcore⟩

/-- Updating the conflict row of a key that does not conflict with `g` leaves
`g`'s first conflict row unchanged. -/
theorem firstAggMatch_updateFirstMatch (g g2 : KPIAggregate)
    (hng : conflictMatch g2 g = false) :
    ∀ (table : List KPIAggregate),
      firstAggMatch (updateFirstMatch table g2) g = firstAggMatch table g
  | [] => rfl
  | k :: rest => by
    cases hk2 : conflictMatch k g2 with
    | true =>
      rw [updateFirstMatch, if_pos hk2]
      cases hkg : conflictMatch k g with
      | true => exact absurd (conflictMatch_trans hk2 hkg) (by simp [hng])
      | false =>
        rw [firstAggMatch, firstAggMatch, List.find?_cons, List.find?_cons]
        simp only [conflictMatch_applyConflictUpdate, hkg]
    | false =>
      rw [updateFirstMatch, if_neg (by simp [hk2])]
      cases hkg : conflictMatch k g with
      | true =>
        rw [firstAggMatch, firstAggMatch, List.find?_cons, List.find?_cons]
        simp only [hkg]
      | false =>
        rw [firstAggMatch, firstAggMatch, List.find?_cons, List.find?_cons]
        simp only [hkg]
        exact firstAggMatch_updateFirstMatch g g2 hng rest

/-- Upserting a non-conflicting row preserves the held-values property. -/
theorem upsertAggRow_preserves {table : List KPIAggregate} {g g2 : KPIAggregate}
    (h : FirstMatchCore table g) (hng : conflictMatch g2 g = false) :
    FirstMatchCore (upsertAggRow table g2) g := by
  obtain ⟨r, hr, hcore⟩ := h
  rw [upsertAggRow]
  by_cases hany : table.any (fun k => conflictMatch k g2) = true
  · rw [if_pos hany]
    exact ⟨r, (firstAggMatch_updateFirstMatch g g2 hng table).trans hr, hcore⟩
  · rw [if_neg hany]
    refine ⟨r, ?_, hcore⟩
    rw [firstAggMatch, List.find?_append]
    rw [firstAggMatch] at hr
    rw [hr]
    rfl

/-- After upserting `g` itself, the table holds `g`'s values at `g`'s
conflict row (the key columns must be non-NULL for the inserted row to be
found again). -/
theorem upsertAggRow_establishes {g : KPIAggregate}
    (h1 : g.channelId.isSome) (h2 : g.daypartId.isSome) :
    ∀ (table : List KPIAggregate), FirstMatchCore (upsertAggRow table g) g := by
  have hself := conflictMatch_self h1 h2
  have estab : ∀ (table : List KPIAggregate),
      (table.any (fun k => conflictMatch k g) = true) →
      FirstMatchCore (updateFirstMatch table g) g := by
    intro table
    induction table with
    | nil => intro hany; simp at hany
    | cons k rest ih =>
      intro hany
      cases hk : conflictMatch k g with
      | true =>
        rw [updateFirstMatch, if_pos hk]
        refine ⟨applyConflictUpdate k g, ?_, ?_⟩
        · rw [firstAggMatch, List.find?_cons]
          simp only [conflictMatch_applyConflictUpdate, hk]
        · exact ⟨rfl, rfl, rfl, rfl, rfl, rfl, rfl⟩
      | false =>
        rw [updateFirstMatch, if_neg (by simp [hk])]
        have hrest : rest.any (fun k => conflictMatch k g) = true := by
          rcases List.any_eq_true.mp hany with ⟨x, hx, hcx⟩
          rcases List.mem_cons.mp hx with rfl | hx'
          · exact absurd hcx (by simp [hk])
          · exact List.any_eq_true.mpr ⟨x, hx', hcx⟩
        obtain ⟨r, hr, hcore⟩ := ih hrest
        refine ⟨r, ?_, hcore⟩
        rw [firstAggMatch, List.find?_cons]
        simp only [hk]
        exact hr
  intro table
  by_cases hany : table.any (fun k => conflictMatch k g) = true
  · rw [upsertAggRow, if_pos hany]
    exact estab table hany
  · rw [upsertAggRow, if_neg hany]
    refine ⟨g, ?_, ⟨rfl, rfl, rfl, rfl, rfl, rfl, rfl⟩⟩
    rw [firstAggMatch, List.find?_append]
    have hnone : table.find? (fun k => conflictMatch k g) = none := by
      rw [List.find?_eq_none]
      intro x hx
      cases hcx : conflictMatch x g
      · simp
      · exact absurd (List.any_eq_true.mpr ⟨x, hx, hcx⟩) hany
    rw [hnone]
    simp [List.find?, hself]

/-- Nullable key comparison is symmetric. -/
theorem nullableKeyEq_comm (a b : Option Nat) :
    nullableKeyEq a b = nullableKeyEq b a := by
  cases a <;> cases b <;> simp [nullableKeyEq]
  exact eq_comm

/-- Natural-number boolean equality is symmetric. -/
theorem natBeq_comm (a b : Nat) : (a == b) = (b == a) := by
  rw [Bool.eq_iff_iff]
  constructor
  · intro h
    exact beq_iff_eq.mpr (beq_iff_eq.mp h).symm
  · intro h
    exact beq_iff_eq.mpr (beq_iff_eq.mp h).symm

/-- Conflict matching is symmetric. -/
theorem conflictMatch_comm (a b : KPIAggregate) :
    conflictMatch a b = conflictMatch b a := by
  rw [conflictMatch, conflictMatch, nullableKeyEq_comm a.channelId b.channelId,
    nullableKeyEq_comm a.daypartId b.daypartId, natBeq_comm a.day b.day,
    natBeq_comm a.locationId b.locationId]

/-- Folding upserts of rows that do not conflict with `g` preserves the
held-values property for `g`. -/
theorem upsertFold_preserves {g : KPIAggregate} :
    ∀ (rows : List KPIAggregate) (table : List KPIAggregate),
      FirstMatchCore table g →
      (∀ h ∈ rows, conflictMatch h g = false) →
      FirstMatchCore (rows.foldl upsertAggRow table) g
  | [], _, h, _ => h
  | r :: rest, table, h, hall => by
    rw [List.foldl_cons]
    exact upsertFold_preserves rest (upsertAggRow table r)
      (upsertAggRow_preserves h (hall r (List.mem_cons_self r rest)))
      (fun x hx => hall x (List.mem_cons_of_mem r hx))

/-- After upserting a batch of pairwise non-conflicting rows with non-NULL
keys, the table holds every batch row's values at its conflict row. -/
theorem upsertFold_establishes :
    ∀ (rows : List KPIAggregate) (table : List KPIAggregate),
      (∀ g ∈ rows, g.channelId.isSome ∧ g.daypartId.isSome) →
      rows.Pairwise (fun a b => conflictMatch a b = false) →
      ∀ g ∈ rows, FirstMatchCore (rows.foldl upsertAggRow table) g
  | [], _, _, _, g, hg => absurd hg (by simp)
  | r :: rest, table, hnn, hpw, g, hg => by
    rw [List.foldl_cons]
    rcases List.mem_cons.mp hg with rfl | hg'
    · have hr := upsertAggRow_establishes
        (hnn g (List.mem_cons_self g rest)).1 (hnn g (List.mem_cons_self g rest)).2 table
      refine upsertFold_preserves rest (upsertAggRow table g) hr ?_
      intro h hh
      have hgh := (List.pairwise_cons.mp hpw).1 h hh
      cases hch : conflictMatch h g with
      | false => rfl
      | true =>
        rw [conflictMatch_comm] at hch
        rw [hgh] at hch
        exact Bool.noConfusion hch
    · exact upsertFold_establishes rest (upsertAggRow table r)
        (fun x hx => hnn x (List.mem_cons_of_mem r hx))
        (List.pairwise_cons.mp hpw).2 g hg'

/-- Upserting a batch whose values the table already holds is a no-op modulo
freshness. -/
theorem upsertFold_noop :
    ∀ (rows : List KPIAggregate) (table : List KPIAggregate),
      (∀ h ∈ rows, FirstMatchCore table h) →
      rows.Pairwise (fun a b => conflictMatch a b = false) →
      stripTable (rows.foldl upsertAggRow table) = stripTable table
  | [], _, _, _ => rfl
  | r :: rest, table, hall, hpw => by
    rw [List.foldl_cons]
    have hstep := upsertAggRow_noop (hall r (List.mem_cons_self r rest))
    have hrest : ∀ h ∈ rest, FirstMatchCore (upsertAggRow table r) h := by
      intro h hh
      exact upsertAggRow_preserves (hall h (List.mem_cons_of_mem r hh))
        ((List.pairwise_cons.mp hpw).1 h hh)
    rw [upsertFold_noop rest (upsertAggRow table r) hrest (List.pairwise_cons.mp hpw).2]
    exact hstep

/-- `dedup` only keeps elements of its input. -/
theorem dedup_subset {α : Type} [DecidableEq α] :
    ∀ (l : List α) (acc : List α) (x : α),
      x ∈ l.foldl (fun acc k => if k ∈ acc then acc else acc ++ [k]) acc →
      x ∈ acc ∨ x ∈ l
  | [], _, x, h => Or.inl h
  | a :: rest, acc, x, h => by
    rw [List.foldl_cons] at h
    rcases dedup_subset rest _ x h with h' | h'
    · by_cases ha : a ∈ acc
      · rw [if_pos ha] at h'
        exact Or.inl h'
      · rw [if_neg ha] at h'
        rcases List.mem_append.mp h' with h'' | h''
        · exact Or.inl h''
        · exact Or.inr (List.mem_cons.mpr (Or.inl (List.mem_singleton.mp h'')))
    · exact Or.inr (List.mem_cons_of_mem a h')

/-- `dedup` produces a duplicate-free list. -/
theorem dedup_nodup {α : Type} [DecidableEq α] :
    ∀ (l : List α) (acc : List α), acc.Nodup →
      (l.foldl (fun acc k => if k ∈ acc then acc else acc ++ [k]) acc).Nodup
  | [], _, h => h
  | a :: rest, acc, h => by
    rw [List.foldl_cons]
    by_cases ha : a ∈ acc
    · rw [if_pos ha]
      exact dedup_nodup rest acc h
    · rw [if_neg ha]
      refine dedup_nodup rest (acc ++ [a]) ?_
      rw [List.nodup_append]
      refine ⟨h, List.nodup_singleton a, ?_⟩
      intro x hx hx1
      rw [List.mem_singleton] at hx1
      subst hx1
      exact ha hx

/-- The group keys of a day's recomputation are the deduplicated channel and
daypart pairs of the day's sales. -/
theorem dayGroupRows_mem (dd : DomainData) (locationId day now : Nat)
    {g : KPIAggregate} (hg : g ∈ dayGroupRows dd locationId day now) :
    ∃ s ∈ dd.sales, s.day = day ∧ s.locationId = locationId ∧
      g.channelId = s.channelId ∧ g.daypartId = s.daypartId := by
  rw [dayGroupRows] at hg
  obtain ⟨key, hkey, rfl⟩ := List.mem_map.mp hg
  rcases dedup_subset _ [] key hkey with h | h
  · exact absurd h (by simp)
  · obtain ⟨s, hs, hks⟩ := List.mem_map.mp h
    rw [List.mem_filter] at hs
    have hcond := of_decide_eq_true hs.2
    refine ⟨s, hs.1, hcond.1, hcond.2, ?_, ?_⟩
    · rw [← hks]
      rfl
    · rw [← hks]
      rfl

/-- With every sale of the day carrying a channel and a daypart, every group
row has non-NULL key columns. -/
theorem dayGroupRows_nonnull (dd : DomainData) (locationId day now : Nat)
    (hnn : ∀ s ∈ dd.sales, s.day = day → s.locationId = locationId →
      s.channelId.isSome ∧ s.daypartId.isSome) :
    ∀ g ∈ dayGroupRows dd locationId day now,
      g.channelId.isSome ∧ g.daypartId.isSome := by
  intro g hg
  obtain ⟨s, hs, hd, hl, hc, hp⟩ := dayGroupRows_mem dd locationId day now hg
  have := hnn s hs hd hl
  exact ⟨hc ▸ this.1, hp ▸ this.2⟩

/-- Distinct group keys with non-NULL components produce non-conflicting
rows. -/
theorem mkAggRow_conflict_false (menuItems : List MenuItem)
    (saleLines : List SaleLine) (day locationId now now' : Nat)
    (k1 k2 : Option Nat × Option Nat) (gs1 gs2 : List SaleRow)
    (hne : k1 ≠ k2) (h1 : k1.1.isSome) (h2 : k1.2.isSome)
    (h3 : k2.1.isSome) (h4 : k2.2.isSome) :
    conflictMatch (mkAggRow menuItems saleLines day locationId now k1 gs1)
      (mkAggRow menuItems saleLines day locationId now' k2 gs2) = false := by
  obtain ⟨a, ha⟩ := Option.isSome_iff_exists.mp h1
  obtain ⟨b, hb⟩ := Option.isSome_iff_exists.mp h2
  obtain ⟨c, hc⟩ := Option.isSome_iff_exists.mp h3
  obtain ⟨d, hd⟩ := Option.isSome_iff_exists.mp h4
  have hch : (mkAggRow menuItems saleLines day locationId now k1 gs1).channelId = k1.1 := rfl
  have hdp : (mkAggRow menuItems saleLines day locationId now k1 gs1).daypartId = k1.2 := rfl
  have hch' : (mkAggRow menuItems saleLines day locationId now' k2 gs2).channelId = k2.1 := rfl
  have hdp' : (mkAggRow menuItems saleLines day locationId now' k2 gs2).daypartId = k2.2 := rfl
  rw [conflictMatch, hch, hdp, hch', hdp', ha, hb, hc, hd]
  by_cases hac : a = c
  · by_cases hbd : b = d
    · exact absurd (Prod.ext (ha.trans (hac ▸ hc.symm)) (hb.trans (hbd ▸ hd.symm))) hne
    · simp [nullableKeyEq, hbd]
  · simp [nullableKeyEq, hac]

/-- The group rows of one day are pairwise non-conflicting when that day's
sales all carry channel and daypart. -/
theorem dayGroupRows_pairwise (dd : DomainData) (locationId day now : Nat)
    (hnn : ∀ s ∈ dd.sales, s.day = day → s.locationId = locationId →
      s.channelId.isSome ∧ s.daypartId.isSome) :
    (dayGroupRows dd locationId day now).Pairwise
      (fun a b => conflictMatch a b = false) := by
  rw [dayGroupRows, List.pairwise_map]
  have hkeys : ∀ k ∈ dedup ((dd.sales.filter
      (fun s => decide (s.day = day ∧ s.locationId = locationId))).map
        (fun s => (s.channelId, s.daypartId))), k.1.isSome ∧ k.2.isSome := by
    intro k hk
    rcases dedup_subset _ [] k hk with h | h
    · exact absurd h (by simp)
    · obtain ⟨s, hs, hks⟩ := List.mem_map.mp h
      rw [List.mem_filter] at hs
      have hcond := of_decide_eq_true hs.2
      have := hnn s hs.1 hcond.1 hcond.2
      exact ⟨hks ▸ this.1, hks ▸ this.2⟩
  have hnd : (dedup ((dd.sales.filter
      (fun s => decide (s.day = day ∧ s.locationId = locationId))).map
        (fun s => (s.channelId, s.daypartId)))).Nodup :=
    dedup_nodup _ [] (List.nodup_nil)
  refine List.Pairwise.imp_of_mem ?_ hnd
  intro k1 k2 hk1 hk2 hne
  exact mkAggRow_conflict_false dd.menuItems dd.saleLines day locationId now now
    k1 k2 _ _ hne (hkeys k1 hk1).1 (hkeys k1 hk1).2 (hkeys k2 hk2).1 (hkeys k2 hk2).2

/-- A later run's group rows are the earlier run's with the freshness
timestamp replaced. -/
theorem dayGroupRows_setFresh (dd : DomainData) (locationId day t1 t2 : Nat) :
    dayGroupRows dd locationId day t2 =
      (dayGroupRows dd locationId day t1).map (setFresh t2) := by
  rw [dayGroupRows, dayGroupRows, List.map_map]
  apply List.map_congr_left
  intro key _
  simp [mkAggRow, setFresh]

/-- The labor UPDATE statement always fails: its scalar subquery places the
bare columns `end_date` and `start_date` next to `SUM` with no GROUP BY. -/
theorem laborUpdate_always_fails (periods : List PayrollPeriod)
    (day locationId : Nat) (table : List KPIAggregate) :
    ∃ e, laborUpdate periods day locationId table = Except.error e := by
  rw [laborUpdate]
  cases hx : evalAggSelect
      (periods.filter (fun p => decide (p.startDay ≤ day ∧ day ≤ p.endDay)))
      laborSelectExpr with
  | error e => exact ⟨e, rfl⟩
  | ok v =>
    exfalso
    rw [laborSelectExpr, evalAggSelect] at hx
    cases hy : evalAggSelect
        (periods.filter (fun p => decide (p.startDay ≤ day ∧ day ≤ p.endDay)))
        (.sumAgg (.col "labor_cost")) with
    | error e =>
      rw [hy] at hx
      exact Except.noConfusion hx
    | ok w =>
      rw [hy] at hx
      exact Except.noConfusion hx

/-- The per-day refresh applies only the INSERT…ON CONFLICT statement: the
labor UPDATE errors out, leaving the table as the insert step left it. -/
theorem refreshDayAggregates_insert_only (dd : DomainData)
    (locationId day now : Nat) (table : List KPIAggregate) :
    (refreshDayAggregates dd locationId day now table).1 =
      insertStep dd locationId day now table ∧
    (refreshDayAggregates dd locationId day now table).2.isSome := by
  obtain ⟨e, he⟩ := laborUpdate_always_fails dd.payrollPeriods day locationId
    (insertStep dd locationId day now table)
  rw [refreshDayAggregates, he]
  exact ⟨rfl, rfl⟩

/-- C4 (amended): recomputing a day twice with unchanged domain data yields
identical aggregate rows except for the freshness timestamp, *provided every
sale of that day and location carries a channel and a daypart* (so every
group key is non-NULL and the ON CONFLICT clause can find the prior row);
group rows with a NULL key column are instead re-inserted as duplicates on
each run, as the counterexample shows. -/
theorem C4_idempotent_for_nonnull_keys (dd : DomainData)
    (locationId day t1 t2 : Nat) (T0 : List KPIAggregate)
    (hnn : ∀ s ∈ dd.sales, s.day = day → s.locationId = locationId →
      s.channelId.isSome ∧ s.daypartId.isSome) :
    stripTable (refreshDayAggregates dd locationId day t2
        ((refreshDayAggregates dd locationId day t1 T0).1)).1
      = stripTable (refreshDayAggregates dd locationId day t1 T0).1 := by
  rw [(refreshDayAggregates_insert_only dd locationId day t1 T0).1,
      (refreshDayAggregates_insert_only dd locationId day t2 _).1]
  rw [insertStep, insertStep]
  rw [dayGroupRows_setFresh dd locationId day t1 t2]
  have hest := upsertFold_establishes (dayGroupRows dd locationId day t1) T0
    (dayGroupRows_nonnull dd locationId day t1 hnn)
    (dayGroupRows_pairwise dd locationId day t1 hnn)
  refine upsertFold_noop _ _ ?_ ?_
  · intro h hh
    obtain ⟨g, hg, rfl⟩ := List.mem_map.mp hh
    obtain ⟨r, hr, hcore⟩ := hest g hg
    exact ⟨r, hr, hcore⟩
  · rw [List.pairwise_map]
    exact (dayGroupRows_pairwise dd locationId day t1 hnn).imp (fun h => h)

/-- Witness for C4 (amended): one sale with channel and daypart set; two runs
agree modulo freshness. -/
theorem C4_idempotent_for_nonnull_keys_witness :
    stripTable (refreshDayAggregates ⟨[⟨1, 5, some 7, some 8, 2, 100, 0, 0⟩], [], [], []⟩ 5 2 12
        ((refreshDayAggregates ⟨[⟨1, 5, some 7, some 8, 2, 100, 0, 0⟩], [], [], []⟩ 5 2 11 []).1)).1
      = stripTable (refreshDayAggregates ⟨[⟨1, 5, some 7, some 8, 2, 100, 0, 0⟩], [], [], []⟩ 5 2 11 []).1 :=
  C4_idempotent_for_nonnull_keys ⟨[⟨1, 5, some 7, some 8, 2, 100, 0, 0⟩], [], [], []⟩
    5 2 11 12 [] (by decide)

/-- The parse loop appends exactly the rows `parseSpecRowsFrom` describes and
counts them. -/
theorem parseLoop_spec (sourceType : String) (mapping : Option MappingProfile)
    (headers : List String) :
    ∀ (recs : List (List String)) (n : Nat) (acc : ParseResult),
      parseLoop sourceType mapping headers recs n acc =
        { headers := acc.headers
          rows := acc.rows ++ parseSpecRowsFrom sourceType mapping headers recs n
          validRows := acc.validRows +
            ((parseSpecRowsFrom sourceType mapping headers recs n).filter
              (fun r => r.errors.isEmpty)).length
          errorRows := acc.errorRows +
            ((parseSpecRowsFrom sourceType mapping headers recs n).filter
              (fun r => ! r.errors.isEmpty)).length
          totalRows := acc.totalRows +
            (parseSpecRowsFrom sourceType mapping headers recs n).length }
  | [], n, acc => by
    simp [parseLoop, parseSpecRowsFrom]
  | record :: rest, n, acc => by
    rw [parseLoop, parseSpecRowsFrom]
    by_cases hw : record.length ≠ headers.length
    · rw [if_pos hw, if_pos hw]
      exact parseLoop_spec sourceType mapping headers rest (n + 1) acc
    · rw [if_neg hw, if_neg hw]
      rw [parseLoop_spec sourceType mapping headers rest (n + 1) _]
      cases hv : (parseRow sourceType mapping headers record (n + 1)).errors.isEmpty <;>
        simp [hv, List.filter_cons, ParseResult.mk.injEq, Nat.add_assoc, Nat.add_comm,
          Nat.add_left_comm]

/-- Every anomaly a row's disposition records carries that row's line
number. -/
theorem rowDisposition_lineNumbers (row : ParsedRow)
    (upsertErr : ParsedRow → Option String) :
    ∀ a ∈ (rowDisposition row upsertErr).anomalies, a.lineNumber = row.lineNumber := by
  intro a ha
  rw [rowDisposition] at ha
  by_cases hv : row.errors.isEmpty
  · rw [if_pos hv] at ha
    cases hu : upsertErr row
    · rw [hu] at ha
      exact absurd ha (by simp)
    · rw [hu] at ha
      obtain rfl := by simpa using ha
      rfl
  · rw [if_neg hv] at ha
    obtain ⟨m, -, rfl⟩ := List.mem_map.mp (by simpa using ha)
    rfl

/-- Every anomaly the `ProcessImport` loop accumulates either pre-existed or
carries the line number of one of the processed rows. -/
theorem processFold_anomaly_sources (upsertErr : ParsedRow → Option String) :
    ∀ (rows : List ParsedRow) (acc : ProcessResult)
      (a : ImportAnomaly),
      a ∈ (rows.foldl (processStep upsertErr) acc).anomalies →
      a ∈ acc.anomalies ∨ ∃ r ∈ rows, a.lineNumber = r.lineNumber
  | [], _, a, h => Or.inl h
  | row :: rest, acc, a, h => by
    rw [List.foldl_cons] at h
    rcases processFold_anomaly_sources upsertErr rest _ a h with h' | ⟨r, hr, he⟩
    · rw [processStep] at h'
      rcases List.mem_append.mp (by simpa using h') with h'' | h''
      · exact Or.inl h''
      · exact Or.inr ⟨row, List.mem_cons_self row rest,
          rowDisposition_lineNumbers row upsertErr a h''⟩
    · exact Or.inr ⟨r, List.mem_cons_of_mem row hr, he⟩

/-- C9 (amended): a malformed CSV line does not abort parsing — the parsed
rows are exactly the well-formed records, each at its true 1-based line
number (the counter advances past malformed lines), and the row counts count
exactly those rows; but a malformed line leaves no trace: it is absent from
the rows and counts, and every anomaly `ProcessImport` ever records carries
the line number of a *parsed* row, so no anomaly can reference a malformed
line. -/
theorem C9_malformed_skipped_subsequent_parsed (sourceType : String)
    (mapping : Option MappingProfile) (headerRecord : List String)
    (dataRecords : List (List String)) (upsertErr : ParsedRow → Option String) :
    Parse sourceType mapping (headerRecord :: dataRecords) =
      some { headers := headerRecord.map trimString
             rows := parseSpecRowsFrom sourceType mapping
               (headerRecord.map trimString) dataRecords 1
             validRows := ((parseSpecRowsFrom sourceType mapping
               (headerRecord.map trimString) dataRecords 1).filter
                 (fun r => r.errors.isEmpty)).length
             errorRows := ((parseSpecRowsFrom sourceType mapping
               (headerRecord.map trimString) dataRecords 1).filter
                 (fun r => ! r.errors.isEmpty)).length
             totalRows := (parseSpecRowsFrom sourceType mapping
               (headerRecord.map trimString) dataRecords 1).length } ∧
    (∀ res, Parse sourceType mapping (headerRecord :: dataRecords) = some res →
      ∀ a ∈ (ProcessImport res upsertErr).anomalies,
        a.lineNumber ∈ res.rows.map (fun r => r.lineNumber)) := by
  constructor
  · rw [Parse]
    rw [parseLoop_spec sourceType mapping (headerRecord.map trimString) dataRecords 1 _]
    simp
  · intro res hres a ha
    rw [ProcessImport] at ha
    rcases processFold_anomaly_sources upsertErr res.rows _ a ha with h | ⟨r, hr, he⟩
    · exact absurd h (by simp)
    · exact List.mem_map.mpr ⟨r, hr, he.symm⟩

/-- Witness for C9 (amended): the malformed line 3 is skipped while lines 2
and 4 parse, and a failing upsert's anomaly references parsed line 2. -/
theorem C9_malformed_skipped_subsequent_parsed_witness :
    Parse "pos" (some ⟨[("Date", "date"), ("Total", "total")], []⟩)
        [[ "Date", "Total" ], [ "2024-01-02", "10.00" ], [ "bad" ],
         [ "2024-01-03", "20.00" ]] =
      some { headers := [ "Date", "Total" ].map trimString
             rows := parseSpecRowsFrom "pos"
               (some ⟨[("Date", "date"), ("Total", "total")], []⟩)
               ([ "Date", "Total" ].map trimString)
               [[ "2024-01-02", "10.00" ], [ "bad" ], [ "2024-01-03", "20.00" ]] 1
             validRows := ((parseSpecRowsFrom "pos"
               (some ⟨[("Date", "date"), ("Total", "total")], []⟩)
               ([ "Date", "Total" ].map trimString)
               [[ "2024-01-02", "10.00" ], [ "bad" ], [ "2024-01-03", "20.00" ]] 1).filter
                 (fun r => r.errors.isEmpty)).length
             errorRows := ((parseSpecRowsFrom "pos"
               (some ⟨[("Date", "date"), ("Total", "total")], []⟩)
               ([ "Date", "Total" ].map trimString)
               [[ "2024-01-02", "10.00" ], [ "bad" ], [ "2024-01-03", "20.00" ]] 1).filter
                 (fun r => ! r.errors.isEmpty)).length
             totalRows := (parseSpecRowsFrom "pos"
               (some ⟨[("Date", "date"), ("Total", "total")], []⟩)
               ([ "Date", "Total" ].map trimString)
               [[ "2024-01-02", "10.00" ], [ "bad" ], [ "2024-01-03", "20.00" ]] 1).length } ∧
    (⟨2, "error", "boom"⟩ : ImportAnomaly).lineNumber ∈
      (parseSpecRowsFrom "pos" (some ⟨[("Date", "date"), ("Total", "total")], []⟩)
        ([ "Date", "Total" ].map trimString)
        [[ "2024-01-02", "10.00" ], [ "bad" ], [ "2024-01-03", "20.00" ]] 1).map
          (fun r => r.lineNumber) :=
  ⟨(C9_malformed_skipped_subsequent_parsed "pos"
      (some ⟨[("Date", "date"), ("Total", "total")], []⟩) [ "Date", "Total" ]
      [[ "2024-01-02", "10.00" ], [ "bad" ], [ "2024-01-03", "20.00" ]]
      (fun _ => some "boom")).1,
   (C9_malformed_skipped_subsequent_parsed "pos"
      (some ⟨[("Date", "date"), ("Total", "total")], []⟩) [ "Date", "Total" ]
      [[ "2024-01-02", "10.00" ], [ "bad" ], [ "2024-01-03", "20.00" ]]
      (fun _ => some "boom")).2 _
     (C9_malformed_skipped_subsequent_parsed "pos"
        (some ⟨[("Date", "date"), ("Total", "total")], []⟩) [ "Date", "Total" ]
        [[ "2024-01-02", "10.00" ], [ "bad" ], [ "2024-01-03", "20.00" ]]
        (fun _ => some "boom")).1
     ⟨2, "error", "boom"⟩ (by decide)⟩

end RestaurantFinance
